import Mathlib

/-!
Verification development for the credential-pool manager of the
Antigravity proxy (`src/Antigravity/src/auth/token_manager.js`).

The source file contains two `TokenManager` variants concatenated:
a round-robin variant (no session affinity) and a sticky-session
variant.  Both are embedded below.  Machine time (`Date.now()`) is a
`Nat` of milliseconds passed explicitly as `now`; the OAuth refresh
endpoint is an explicit oracle argument; the durable `accounts.json`
snapshot (`this.cachedData`, patched by `saveToFile` and re-read by
`loadTokens(true)`) is the `store` field of the state.  JavaScript
`Map`s are association lists with `Map.set` / `Map.delete` / `Map.get`
semantics.  A thrown value is an `Except.error`; since `throw` aborts
the method but keeps mutations already made, every operation returns
its result together with the (possibly mutated) state.
-/

namespace Antigravity

/-- One credential record as stored in `accounts.json` and held in
`this.tokens`.  `timestamp`/`expires_in` use `0` for the JavaScript
falsy/missing case (the code tests `!token.timestamp`,
`!token.expires_in`); `enable` is the value of the JS test
`token.enable !== false`; `disabledUntil = none` models the field
being absent (`delete token.disabledUntil`). -/
structure Token where
  refresh_token : String
  access_token : String
  timestamp : Nat
  expires_in : Nat
  enable : Bool
  disabledUntil : Option Nat
  quotaExhausted : Bool
  deriving DecidableEq, Repr, Inhabited

/-- An error value of the shape thrown by the upstream call sites and by
`refreshToken` (`{ statusCode, message }`); either field may be absent. -/
structure ErrObj where
  statusCode : Option Nat
  message : Option String
  deriving DecidableEq, Repr

/-- A thrown JavaScript value: either a plain `{statusCode, message}`
object (request / refresh errors are thrown and re-thrown as such) or a
`new Error(msg)`. -/
inductive JsError where
  | thrown (e : ErrObj)
  | error (msg : String)
  deriving DecidableEq, Repr

/-- The upstream OAuth token endpoint, as observed by `refreshToken`:
for a refresh secret it yields the new `access_token` and `expires_in`
of the response body, or the error object that `refreshToken` throws on
a non-ok response. -/
def RefreshOracle := String → Except ErrObj (String × Nat)

/-- Membership test of the JS `String.prototype.includes` at one
starting position: the pattern is a prefix of the text. -/
def charsStartWith : List Char → List Char → Bool
  | [], _ => true
  | _ :: _, [] => false
  | p :: ps, c :: cs => p == c && charsStartWith ps cs

/-- Substring containment on character lists. -/
def charsContain (pat : List Char) : List Char → Bool
  | [] => charsStartWith pat []
  | c :: cs => charsStartWith pat (c :: cs) || charsContain pat cs

/-- JS `s.includes(pat)`. -/
def strIncludes (s pat : String) : Bool := charsContain pat.toList s.toList

/-- JS `error.message && error.message.includes('quota')`. -/
def msgIndicatesQuota (e : ErrObj) : Bool :=
  match e.message with
  | some m => strIncludes m "quota"
  | none => false

/-- The quota-exhaustion classification at the top of
`handleRequestError`: `error.statusCode === 429 || (error.message &&
error.message.includes('quota'))`. -/
def isQuotaError (e : ErrObj) : Bool :=
  e.statusCode == some 429 || msgIndicatesQuota e

/-- `isExpired` (both variants): missing `timestamp`/`expires_in` count
as expired, otherwise `Date.now() >= timestamp + expires_in*1000 -
300000` (the 5-minute safety margin), rearranged over `Nat`. -/
def isExpired (now : Nat) (t : Token) : Bool :=
  if t.timestamp == 0 || t.expires_in == 0 then true
  else now + 300000 ≥ t.timestamp + t.expires_in * 1000

/-- `isTokenDisabledByQuota`: `token.disabledUntil && Date.now() <
token.disabledUntil` (a stored `0` is falsy in JS and `now < 0` is
false here, so `some 0` and `none` agree). -/
def isTokenDisabledByQuota (now : Nat) (t : Token) : Bool :=
  match t.disabledUntil with
  | some d => now < d
  | none => false

/-- The successful-refresh update of `refreshToken`: the record gets
the response's access token and ttl and a fresh `timestamp`. -/
def refreshUpd (now : Nat) (na : String) (ei : Nat) (t : Token) : Token :=
  { t with access_token := na, expires_in := ei, timestamp := now }

/-- In-place mutation of a credential object that lives inside a list:
the JS code mutates the found object, which this functional model
renders as replacing every record carrying the same `refresh_token`
(the credential id, unique in practice). -/
def updateTokenIn (l : List Token) (t : Token) : List Token :=
  l.map (fun x => if x.refresh_token == t.refresh_token then t else x)

/-- `saveToFile`: patch the cached durable snapshot with the in-memory
records, matching on `refresh_token`; records absent from memory are
left as they are, and nothing is appended. -/
def saveStore (mem store : List Token) : List Token :=
  store.map (fun x =>
    ((mem.find? (fun m => m.refresh_token == x.refresh_token)).getD x))

/-! JavaScript `Map` as an association list. -/

/-- `Map.get`. -/
def mapLookup {β : Type} (m : List (String × β)) (k : String) : Option β :=
  (m.find? (fun p => p.1 == k)).map (fun p => p.2)

/-- `Map.set`: update in place if the key is present, else append. -/
def mapSet {β : Type} : List (String × β) → String → β → List (String × β)
  | [], k, v => [(k, v)]
  | (k', v') :: rest, k, v =>
    if k' == k then (k, v) :: rest else (k', v') :: mapSet rest k v

/-- `Map.delete`. -/
def mapDelete {β : Type} (m : List (String × β)) (k : String) : List (String × β) :=
  m.filter (fun p => ¬ p.1 == k)

/-- One entry of `this.sessionBindings`. -/
structure Binding where
  tokenIndex : Nat
  refreshToken : String
  lastAccessTime : Nat
  deriving DecidableEq, Repr

/-- One entry of `this.usageStats`. -/
structure UsageStat where
  requests : Nat
  lastUsed : Option Nat
  deriving DecidableEq, Repr

/-- `recordUsage`. -/
def recordUsage (now : Nat) (u : List (String × UsageStat)) (rt : String) :
    List (String × UsageStat) :=
  match mapLookup u rt with
  | some st => mapSet u rt { requests := st.requests + 1, lastUsed := some now }
  | none => mapSet u rt { requests := 1, lastUsed := some now }

/-- The state of the sticky-session `TokenManager`: the loaded token
list `tokens`, the durable snapshot `store` (`this.cachedData`, kept in
step with the file by `saveToFile`), the two binding maps and the usage
statistics. -/
structure PoolState where
  tokens : List Token
  store : List Token
  sessionBindings : List (String × Binding)
  tokenSessions : List (String × String)
  usageStats : List (String × UsageStat)
  deriving Repr

/-- `releaseSession`. -/
def releaseSession (sid : String) (s : PoolState) : PoolState :=
  match mapLookup s.sessionBindings sid with
  | some b =>
    { s with tokenSessions := mapDelete s.tokenSessions b.refreshToken,
             sessionBindings := mapDelete s.sessionBindings sid }
  | none => s

/-- `findFreeToken`, indexed scan part. -/
def findFreeTokenAux (now : Nat) (ts : List (String × String)) :
    Nat → List Token → Option (Nat × Token)
  | _, [] => none
  | i, t :: rest =>
    if t.enable && !(isTokenDisabledByQuota now t)
        && (mapLookup ts t.refresh_token).isNone
    then some (i, t)
    else findFreeTokenAux now ts (i + 1) rest

/-- `findFreeToken`: first loaded token that is enabled, not
quota-disabled and not bound to any session. -/
def findFreeToken (now : Nat) (s : PoolState) : Option (Nat × Token) :=
  findFreeTokenAux now s.tokenSessions 0 s.tokens

/-- Steps 2-4 of `getTokenForSession`: pick a free token, refresh it if
near expiry, record both binding map entries, tick usage. -/
def assignNewToken (o : RefreshOracle) (now : Nat) (sid : String)
    (s : PoolState) : Except JsError Token × PoolState :=
  match findFreeToken now s with
  | none =>
    (.error (.error "No available tokens. All tokens are either in use or disabled."), s)
  | some (i, tok) =>
    match (if isExpired now tok then o tok.refresh_token
           else .ok (tok.access_token, tok.expires_in)) with
    | .error e => (.error (.thrown e), s)
    | .ok (na, ei) =>
      let tok' := if isExpired now tok then refreshUpd now na ei tok else tok
      let tokens' := if isExpired now tok then updateTokenIn s.tokens tok' else s.tokens
      let store' := if isExpired now tok then saveStore tokens' s.store else s.store
      (.ok tok',
       { tokens := tokens'
         store := store'
         sessionBindings := mapSet s.sessionBindings sid
           { tokenIndex := i, refreshToken := tok'.refresh_token, lastAccessTime := now }
         tokenSessions := mapSet s.tokenSessions tok'.refresh_token sid
         usageStats := recordUsage now s.usageStats tok'.refresh_token })

/-- `getTokenForSession`.  An empty session id is the JS falsy case of
`if (!sessionId)`. -/
def getTokenForSession (o : RefreshOracle) (now : Nat) (sid : String)
    (s : PoolState) : Except JsError Token × PoolState :=
  if sid == "" then (.error (.error "Session ID is required"), s)
  else
    match mapLookup s.sessionBindings sid with
    | some b =>
      let s₁ : PoolState :=
        { s with sessionBindings := mapSet s.sessionBindings sid
                   { b with lastAccessTime := now } }
      match s₁.tokens.find? (fun t => t.refresh_token == b.refreshToken) with
      | some tok =>
        if tok.enable && !(isTokenDisabledByQuota now tok) then
          match (if isExpired now tok then o tok.refresh_token
                 else .ok (tok.access_token, tok.expires_in)) with
          | .error e => (.error (.thrown e), s₁)
          | .ok (na, ei) =>
            let tok' := if isExpired now tok then refreshUpd now na ei tok else tok
            let tokens' := if isExpired now tok then updateTokenIn s₁.tokens tok' else s₁.tokens
            let store' := if isExpired now tok then saveStore tokens' s₁.store else s₁.store
            (.ok tok',
             { s₁ with tokens := tokens', store := store',
                       usageStats := recordUsage now s₁.usageStats tok'.refresh_token })
        else assignNewToken o now sid (releaseSession sid s₁)
      | none => assignNewToken o now sid (releaseSession sid s₁)
    | none => assignNewToken o now sid s

/-- The field update of `disableTokenUntil` on the affected record. -/
def disableUntilUpd (resetTime : Nat) (t : Token) : Token :=
  { t with disabledUntil := some resetTime, quotaExhausted := true }

/-- `disableTokenUntil`: mark the record quota-disabled until
`resetTime`, persist, and release the session bound to it (if any). -/
def disableTokenUntil (rt : String) (resetTime : Nat) (s : PoolState) : PoolState :=
  let tokens' := s.tokens.map (fun t =>
    if t.refresh_token == rt then disableUntilUpd resetTime t else t)
  let s₁ : PoolState := { s with tokens := tokens', store := saveStore tokens' s.store }
  match mapLookup s₁.tokenSessions rt with
  | some sid => releaseSession sid s₁
  | none => s₁

/-- The field update of `disableToken` on the affected record:
`enable = false`, `delete disabledUntil`, `delete quotaExhausted`. -/
def disableUpd (t : Token) : Token :=
  { t with enable := false, disabledUntil := none, quotaExhausted := false }

/-- `disableToken`: permanently disable the record, persist, release
the session bound to it, then `loadTokens(true)` re-reads the saved
snapshot and keeps only records with `enable !== false`. -/
def disableToken (rt : String) (s : PoolState) : PoolState :=
  let tokens' := s.tokens.map (fun t => if t.refresh_token == rt then disableUpd t else t)
  let store' := saveStore tokens' s.store
  let s₁ : PoolState := { s with tokens := tokens', store := store' }
  let s₂ :=
    match mapLookup s₁.tokenSessions rt with
    | some sid => releaseSession sid s₁
    | none => s₁
  { s₂ with tokens := store'.filter (fun t => t.enable) }

/-- The cooldown boundary computed by `handleRequestError` for quota
errors: `new Date()` advanced to the next UTC midnight. -/
def nextUtcMidnight (now : Nat) : Nat := (now / 86400000 + 1) * 86400000

/-- `handleRequestError` of the sticky-session variant.  `sid = none`
models a missing `sessionId` argument; `some ""` is falsy in the JS
`if (sessionId)` test. -/
def handleRequestError (o : RefreshOracle) (now : Nat) (e : ErrObj)
    (rt : String) (sid : Option String) (s : PoolState) :
    Except JsError Token × PoolState :=
  if isQuotaError e then
    let s₁ := disableTokenUntil rt (nextUtcMidnight now) s
    match sid with
    | some S => if S == "" then (.error (.thrown e), s₁) else getTokenForSession o now S s₁
    | none => (.error (.thrown e), s₁)
  else if e.statusCode == some 403 then
    let s₁ := disableToken rt s
    match sid with
    | some S => if S == "" then (.error (.thrown e), s₁) else getTokenForSession o now S s₁
    | none => (.error (.thrown e), s₁)
  else (.error (.thrown e), s)

/-- The 30-minute `this.SESSION_TIMEOUT` of the sticky variant. -/
def SESSION_TIMEOUT : Nat := 30 * 60 * 1000

/-- One pass of the `startSessionCleanup` interval body: release every
binding idle for strictly longer than the timeout. -/
def sessionCleanupTick (timeout now : Nat) (s : PoolState) : PoolState :=
  (s.sessionBindings.filter (fun p => timeout < now - p.2.lastAccessTime)).foldl
    (fun st p => releaseSession p.1 st) s

/-! The round-robin `TokenManager` variant (the first class in the
source file): no session maps, a monotone cursor instead. -/

/-- State of the round-robin variant. -/
structure RRState where
  tokens : List Token
  store : List Token
  currentTokenIndex : Nat
  usageStats : List (String × UsageStat)
  deriving Repr

/-- The `availableTokens` filter inside `getNextToken`: enabled and not
quota-disabled. -/
def rrAvailableTokens (now : Nat) (s : RRState) : List Token :=
  s.tokens.filter (fun t => t.enable && !(isTokenDisabledByQuota now t))

/-- `getNextToken`: round-robin pick from the available subset, cursor
post-incremented and reset to `0` once it exceeds `10000`, refresh on
expiry, usage tick. -/
def getNextToken (o : RefreshOracle) (now : Nat) (s : RRState) :
    Except JsError Token × RRState :=
  if s.tokens.isEmpty then (.error (.error "No tokens available."), s)
  else
    let avail := rrAvailableTokens now s
    if avail.isEmpty then (.error (.error "No enabled tokens available."), s)
    else
      let tok := avail.getD (s.currentTokenIndex % avail.length) default
      let idx₁ := s.currentTokenIndex + 1
      let idx₂ := if idx₁ > 10000 then 0 else idx₁
      match (if isExpired now tok then o tok.refresh_token
             else .ok (tok.access_token, tok.expires_in)) with
      | .error e => (.error (.thrown e), { s with currentTokenIndex := idx₂ })
      | .ok (na, ei) =>
        let tok' := if isExpired now tok then refreshUpd now na ei tok else tok
        let tokens' := if isExpired now tok then updateTokenIn s.tokens tok' else s.tokens
        let store' := if isExpired now tok then saveStore tokens' s.store else s.store
        (.ok tok',
         { tokens := tokens', store := store', currentTokenIndex := idx₂,
           usageStats := recordUsage now s.usageStats tok'.refresh_token })

/-- `disableTokenUntil` of the round-robin variant (no session maps to
release). -/
def rrDisableTokenUntil (rt : String) (resetTime : Nat) (s : RRState) : RRState :=
  let tokens' := s.tokens.map (fun t =>
    if t.refresh_token == rt then disableUntilUpd resetTime t else t)
  { s with tokens := tokens', store := saveStore tokens' s.store }

/-- `disableToken` of the round-robin variant: disable, persist, then
`loadTokens(true)` keeps only enabled records of the saved snapshot. -/
def rrDisableToken (rt : String) (s : RRState) : RRState :=
  let tokens' := s.tokens.map (fun t => if t.refresh_token == rt then disableUpd t else t)
  let store' := saveStore tokens' s.store
  { s with tokens := store'.filter (fun t => t.enable), store := store' }

/-- `handleRequestError` of the round-robin variant: quota errors cool
the credential down to the next UTC midnight, 403 and 400 disable it
permanently; each classified branch then returns `getNextToken()`;
everything else is re-thrown unchanged. -/
def rrHandleRequestError (o : RefreshOracle) (now : Nat) (e : ErrObj)
    (rt : String) (s : RRState) : Except JsError Token × RRState :=
  if isQuotaError e then
    getNextToken o now (rrDisableTokenUntil rt (nextUtcMidnight now) s)
  else if e.statusCode == some 403 then
    getNextToken o now (rrDisableToken rt s)
  else if e.statusCode == some 400 then
    getNextToken o now (rrDisableToken rt s)
  else (.error (.thrown e), s)

/-- One row of the `tokens` array built by `getUsageStats` of the
round-robin variant (ISO date strings kept as raw instants). -/
structure TokenStatEntry where
  index : Nat
  requests : Nat
  lastUsed : Option Nat
  enabled : Bool
  quotaExhausted : Bool
  disabledUntil : Option Nat
  deriving DecidableEq, Repr

/-- The object returned by `getUsageStats` of the round-robin
variant. -/
structure UsageSnapshot where
  totalTokens : Nat
  availableTokens : Nat
  totalRequests : Nat
  tokenEntries : List TokenStatEntry
  deriving DecidableEq, Repr

/-- The callback of the `availableTokens` filter in the round-robin
`getUsageStats` (`t => token.enable !== false &&
!this.isTokenDisabledByQuota(t)`): it reads the identifier `token`,
which is not its parameter (`t`).  `scopeToken` is the value of an
enclosing binding named `token` where one exists; evaluating the
identifier with no such binding throws a `ReferenceError`. -/
def availableFilterPred (scopeToken : Option Token) (now : Nat) (t : Token) :
    Except JsError Bool :=
  match scopeToken with
  | none => .error (.error "ReferenceError: token is not defined")
  | some token => .ok (token.enable && !(isTokenDisabledByQuota now t))

/-- Length of a JS `filter` result whose callback may throw: the
callback runs left to right and the first exception aborts. -/
def exceptCount {α ε : Type} (p : α → Except ε Bool) : List α → Except ε Nat
  | [] => .ok 0
  | a :: l =>
    match p a with
    | .error e => .error e
    | .ok b =>
      match exceptCount p l with
      | .error e => .error e
      | .ok n => .ok (if b then n + 1 else n)

/-- `getUsageStats` of the round-robin variant.  The per-token rows and
`totalTokens` are built first; computing `availableTokens` evaluates
the filter callback above, with no binding named `token` in scope at
that point in the method body. -/
def rrGetUsageStats (now : Nat) (s : RRState) : Except JsError UsageSnapshot :=
  let entries := s.tokens.enum.map (fun p =>
    let usage := (mapLookup s.usageStats p.2.refresh_token).getD
      { requests := 0, lastUsed := none }
    { index := p.1, requests := usage.requests, lastUsed := usage.lastUsed,
      enabled := p.2.enable, quotaExhausted := p.2.quotaExhausted,
      disabledUntil := p.2.disabledUntil : TokenStatEntry })
  match exceptCount (availableFilterPred none now) s.tokens with
  | .error e => .error e
  | .ok nAvail =>
    .ok { totalTokens := s.tokens.length, availableTokens := nAvail,
          totalRequests := (s.usageStats.map (fun p => p.2.requests)).sum,
          tokenEntries := entries }

/-! Reachability through the public operations of the sticky-session
pool, for the binding-map invariant. -/

/-- One public operation of the sticky-session pool, with arbitrary
call parameters (wall-clock instant, refresh oracle, arguments). -/
inductive PoolStep : PoolState → PoolState → Prop
  | acquire (o : RefreshOracle) (now : Nat) (sid : String) (s : PoolState) :
      PoolStep s (getTokenForSession o now sid s).2
  | release (sid : String) (s : PoolState) : PoolStep s (releaseSession sid s)
  | report (o : RefreshOracle) (now : Nat) (e : ErrObj) (rt : String)
      (sid : Option String) (s : PoolState) :
      PoolStep s (handleRequestError o now e rt sid s).2
  | disable (rt : String) (s : PoolState) : PoolStep s (disableToken rt s)
  | disableUntil (rt : String) (resetTime : Nat) (s : PoolState) :
      PoolStep s (disableTokenUntil rt resetTime s)
  | cleanup (now : Nat) (s : PoolState) :
      PoolStep s (sessionCleanupTick SESSION_TIMEOUT now s)

/-- States reachable by chaining public operations. -/
def PoolReachable : PoolState → PoolState → Prop :=
  Relation.ReflTransGen PoolStep

/-- The binding-map invariant: both maps have no duplicate keys, and
they are mutually inverse (`sessionBindings` maps a session to the
credential that `tokenSessions` maps back to it, and conversely). -/
structure MapsInv (s : PoolState) : Prop where
  sbNodup : (s.sessionBindings.map Prod.fst).Nodup
  tsNodup : (s.tokenSessions.map Prod.fst).Nodup
  forward : ∀ sid b, mapLookup s.sessionBindings sid = some b →
    mapLookup s.tokenSessions b.refreshToken = some sid
  backward : ∀ rt sid, mapLookup s.tokenSessions rt = some sid →
    ∃ b, mapLookup s.sessionBindings sid = some b ∧ b.refreshToken = rt

/-- The pool state right after a restart: both session maps rebuilt
empty (session affinity is in-memory only). -/
def poolInit (toks store : List Token) : PoolState :=
  { tokens := toks, store := store, sessionBindings := [],
    tokenSessions := [], usageStats := [] }

/-- A sequence of `n` consecutive `getNextToken` calls at a fixed
instant, threading the state; returns the list of call results. -/
def rrRunN (o : RefreshOracle) (now : Nat) :
    Nat → RRState → List (Except JsError Token) × RRState
  | 0, s => ([], s)
  | n + 1, s =>
    let r := getNextToken o now s
    let rest := rrRunN o now n r.2
    (r.1 :: rest.1, rest.2)

/-- The credential id `crt` is retired: no loaded record carries it,
and every durable record carrying it is disabled.  This is the state of
affairs right after `disableToken crt` and, because no public operation
re-enables a record or invents new loaded records, it is preserved by
every further operation until an operator restore. -/
def NoCred (crt : String) (s : PoolState) : Prop :=
  (∀ t ∈ s.tokens, t.refresh_token ≠ crt) ∧
  (∀ t ∈ s.store, t.refresh_token = crt → t.enable = false)

/-! Association-list lemmas for the `Map` embedding. -/

theorem mapLookup_cons {β : Type} (k₀ : String) (v₀ : β) (m : List (String × β))
    (k : String) :
    mapLookup ((k₀, v₀) :: m) k = if k₀ = k then some v₀ else mapLookup m k := by
  by_cases h : k₀ = k <;> simp [mapLookup, List.find?_cons, h]

theorem mapLookup_mapSet {β : Type} (m : List (String × β)) (k k' : String) (v : β) :
    mapLookup (mapSet m k v) k' = if k = k' then some v else mapLookup m k' := by
  induction m with
  | nil =>
    show mapLookup ((k, v) :: []) k' = _
    rw [mapLookup_cons]
  | cons p rest ih =>
    obtain ⟨k₀, v₀⟩ := p
    by_cases h0 : k₀ = k
    · subst h0
      have hb : (k₀ == k₀) = true := by simp
      show mapLookup (if (k₀ == k₀) then (k₀, v) :: rest else _) k' = _
      rw [hb, if_pos rfl, mapLookup_cons, mapLookup_cons]
      by_cases h : k₀ = k' <;> simp [h]
    · have hb : (k₀ == k) = false := by simp [h0]
      show mapLookup (if (k₀ == k) then _ else (k₀, v₀) :: mapSet rest k v) k' = _
      rw [hb]
      show mapLookup ((k₀, v₀) :: mapSet rest k v) k' = _
      rw [mapLookup_cons, mapLookup_cons, ih]
      by_cases h1 : k₀ = k' <;> by_cases h2 : k = k' <;> simp [h1, h2]
      exact absurd (h1.trans h2.symm) h0

theorem mapLookup_mapDelete {β : Type} (m : List (String × β)) (k k' : String) :
    mapLookup (mapDelete m k) k' = if k = k' then none else mapLookup m k' := by
  induction m with
  | nil =>
    show mapLookup ([] : List (String × β)) k' = _
    by_cases h : k = k' <;> simp [mapLookup, h]
  | cons p rest ih =>
    obtain ⟨k₀, v₀⟩ := p
    by_cases h0 : k₀ = k
    · subst h0
      have : mapDelete ((k₀, v₀) :: rest) k₀ = mapDelete rest k₀ := by
        simp [mapDelete, List.filter_cons]
      rw [this, ih, mapLookup_cons]
      by_cases h : k₀ = k' <;> simp [h]
    · have : mapDelete ((k₀, v₀) :: rest) k = (k₀, v₀) :: mapDelete rest k := by
        simp [mapDelete, List.filter_cons, h0]
      rw [this, mapLookup_cons, ih, mapLookup_cons]
      by_cases h1 : k₀ = k' <;> by_cases h2 : k = k' <;> simp [h1, h2]
      exact absurd (h2.trans h1.symm) (fun hh => h0 hh.symm)

theorem keys_mapSet {β : Type} (m : List (String × β)) (k : String) (v : β) :
    (mapSet m k v).map Prod.fst =
      if k ∈ m.map Prod.fst then m.map Prod.fst else m.map Prod.fst ++ [k] := by
  induction m with
  | nil => simp [mapSet]
  | cons p rest ih =>
    obtain ⟨k₀, v₀⟩ := p
    by_cases h0 : k₀ = k
    · subst h0
      have hb : (k₀ == k₀) = true := by simp
      show ((if (k₀ == k₀) then (k₀, v) :: rest else _).map Prod.fst) = _
      rw [hb, if_pos rfl]
      simp
    · have hb : (k₀ == k) = false := by simp [h0]
      show ((if (k₀ == k) then _ else (k₀, v₀) :: mapSet rest k v).map Prod.fst) = _
      rw [hb]
      show k₀ :: (mapSet rest k v).map Prod.fst = _
      rw [ih]
      have hne : ¬ k = k₀ := fun hh => h0 hh.symm
      by_cases hmem : k ∈ rest.map Prod.fst
      · simp [hmem, hne]
      · simp [hmem, hne]

theorem keys_nodup_mapSet {β : Type} (m : List (String × β)) (k : String) (v : β)
    (h : (m.map Prod.fst).Nodup) : ((mapSet m k v).map Prod.fst).Nodup := by
  rw [keys_mapSet]
  by_cases hmem : k ∈ m.map Prod.fst
  · simpa [hmem] using h
  · simp [hmem, List.nodup_append, h]

theorem keys_nodup_mapDelete {β : Type} (m : List (String × β)) (k : String)
    (h : (m.map Prod.fst).Nodup) : ((mapDelete m k).map Prod.fst).Nodup :=
  h.sublist (List.Sublist.map Prod.fst (List.filter_sublist m))

/-! Preservation of the binding-map invariant by each public
operation. -/

theorem mapsInv_releaseSession (sid : String) (s : PoolState) (h : MapsInv s) :
    MapsInv (releaseSession sid s) := by
  unfold releaseSession
  cases hb : mapLookup s.sessionBindings sid with
  | none => exact h
  | some b =>
    constructor
    · exact keys_nodup_mapDelete _ _ h.sbNodup
    · exact keys_nodup_mapDelete _ _ h.tsNodup
    · intro sid' b' hl
      rw [mapLookup_mapDelete] at hl
      by_cases hs : sid = sid'
      · rw [if_pos hs] at hl; cases hl
      · rw [if_neg hs] at hl
        have hf := h.forward sid' b' hl
        have hne : b.refreshToken ≠ b'.refreshToken := by
          intro he
          have hfs := h.forward sid b hb
          rw [he, hf] at hfs
          exact hs (Option.some.inj hfs).symm
        rw [mapLookup_mapDelete, if_neg hne]
        exact hf
    · intro rt sid' hl
      rw [mapLookup_mapDelete] at hl
      by_cases hr : b.refreshToken = rt
      · rw [if_pos hr] at hl; cases hl
      · rw [if_neg hr] at hl
        obtain ⟨b₂, hb₂, hrt⟩ := h.backward rt sid' hl
        have hsne : sid ≠ sid' := by
          intro he; subst he
          rw [hb] at hb₂
          exact hr ((Option.some.inj hb₂) ▸ hrt)
        exact ⟨b₂, by rw [mapLookup_mapDelete, if_neg hsne]; exact hb₂, hrt⟩

theorem releaseSession_lookup_self (sid : String) (s : PoolState) :
    mapLookup (releaseSession sid s).sessionBindings sid = none := by
  unfold releaseSession
  cases hb : mapLookup s.sessionBindings sid with
  | none => exact hb
  | some b => simp [mapLookup_mapDelete]

theorem mapsInv_touch (s : PoolState) (h : MapsInv s) (sid : String) (b : Binding)
    (hb : mapLookup s.sessionBindings sid = some b) (now : Nat) :
    MapsInv { s with
              sessionBindings := mapSet s.sessionBindings sid
                { b with lastAccessTime := now } } := by
  constructor
  · exact keys_nodup_mapSet _ _ _ h.sbNodup
  · exact h.tsNodup
  · intro sid' b' hl
    rw [mapLookup_mapSet] at hl
    by_cases hs : sid = sid'
    · rw [if_pos hs] at hl
      have hb' : b' = { b with lastAccessTime := now } := (Option.some.inj hl).symm
      subst hb'
      exact hs ▸ h.forward sid b hb
    · rw [if_neg hs] at hl
      exact h.forward sid' b' hl
  · intro rt sid' hl
    obtain ⟨b₂, hb₂, hrt⟩ := h.backward rt sid' hl
    by_cases hs : sid = sid'
    · subst hs
      rw [hb] at hb₂
      have hbb : b₂ = b := (Option.some.inj hb₂).symm
      rw [hbb] at hrt
      exact ⟨{ b with lastAccessTime := now },
        by rw [mapLookup_mapSet, if_pos rfl], hrt⟩
    · exact ⟨b₂, by rw [mapLookup_mapSet, if_neg hs]; exact hb₂, hrt⟩

theorem mapsInv_bind (s : PoolState) (h : MapsInv s) (sid rt : String) (i now : Nat)
    (hsb : mapLookup s.sessionBindings sid = none)
    (hts : mapLookup s.tokenSessions rt = none)
    (toks store : List Token) (us : List (String × UsageStat)) :
    MapsInv { tokens := toks, store := store,
              sessionBindings := mapSet s.sessionBindings sid
                { tokenIndex := i, refreshToken := rt, lastAccessTime := now },
              tokenSessions := mapSet s.tokenSessions rt sid,
              usageStats := us } := by
  constructor
  · exact keys_nodup_mapSet _ _ _ h.sbNodup
  · exact keys_nodup_mapSet _ _ _ h.tsNodup
  · intro sid' b' hl
    rw [mapLookup_mapSet] at hl
    by_cases hs : sid = sid'
    · rw [if_pos hs] at hl
      have hb' : b' = { tokenIndex := i, refreshToken := rt, lastAccessTime := now } :=
        (Option.some.inj hl).symm
      subst hb'
      rw [mapLookup_mapSet, if_pos rfl, hs]
    · rw [if_neg hs] at hl
      have hf := h.forward sid' b' hl
      rw [mapLookup_mapSet]
      by_cases hr : rt = b'.refreshToken
      · rw [← hr, hts] at hf; cases hf
      · rw [if_neg hr]; exact hf
  · intro rt' sid' hl
    rw [mapLookup_mapSet] at hl
    by_cases hr : rt = rt'
    · rw [if_pos hr] at hl
      have hs : sid' = sid := (Option.some.inj hl).symm
      subst hs
      exact ⟨{ tokenIndex := i, refreshToken := rt, lastAccessTime := now },
        by rw [mapLookup_mapSet, if_pos rfl], hr⟩
    · rw [if_neg hr] at hl
      obtain ⟨b₂, hb₂, hrt⟩ := h.backward rt' sid' hl
      have hs : sid ≠ sid' := by
        intro he; subst he; rw [hsb] at hb₂; cases hb₂
      exact ⟨b₂, by rw [mapLookup_mapSet, if_neg hs]; exact hb₂, hrt⟩

theorem findFreeTokenAux_spec (now : Nat) (ts : List (String × String)) :
    ∀ (l : List Token) (i j : Nat) (t : Token),
      findFreeTokenAux now ts i l = some (j, t) →
      t ∈ l ∧ t.enable = true ∧ isTokenDisabledByQuota now t = false ∧
        mapLookup ts t.refresh_token = none := by
  intro l
  induction l with
  | nil => intro i j t h; cases h
  | cons a rest ih =>
    intro i j t h
    unfold findFreeTokenAux at h
    by_cases hc : (a.enable && !(isTokenDisabledByQuota now a)
        && (mapLookup ts a.refresh_token).isNone) = true
    · rw [if_pos hc] at h
      have hat : a = t := congrArg Prod.snd (Option.some.inj h)
      subst hat
      simp only [Bool.and_eq_true, Bool.not_eq_true'] at hc
      exact ⟨List.mem_cons_self a rest, hc.1.1, hc.1.2,
        Option.isNone_iff_eq_none.mp hc.2⟩
    · rw [if_neg hc] at h
      obtain ⟨hmem, h1, h2, h3⟩ := ih (i + 1) j t h
      exact ⟨List.mem_cons_of_mem a hmem, h1, h2, h3⟩

theorem findFreeToken_spec (now : Nat) (s : PoolState) (i : Nat) (t : Token)
    (h : findFreeToken now s = some (i, t)) :
    t ∈ s.tokens ∧ t.enable = true ∧ isTokenDisabledByQuota now t = false ∧
      mapLookup s.tokenSessions t.refresh_token = none :=
  findFreeTokenAux_spec now s.tokenSessions s.tokens 0 i t h

theorem refreshUpd_refresh_token (now : Nat) (na : String) (ei : Nat) (t : Token) :
    (refreshUpd now na ei t).refresh_token = t.refresh_token := rfl

theorem mapsInv_assignNewToken (o : RefreshOracle) (now : Nat) (sid : String)
    (s : PoolState) (h : MapsInv s)
    (hsb : mapLookup s.sessionBindings sid = none) :
    MapsInv (assignNewToken o now sid s).2 := by
  unfold assignNewToken
  split
  · exact h
  next i tok hf =>
    obtain ⟨hmem, hen, hq, hts⟩ := findFreeToken_spec now s i tok hf
    split
    · exact h
    next na ei hr =>
      have hrt : (if isExpired now tok then refreshUpd now na ei tok
          else tok).refresh_token = tok.refresh_token := by
        by_cases hx : isExpired now tok <;> simp [hx, refreshUpd]
      dsimp only
      rw [hrt]
      exact mapsInv_bind s h sid tok.refresh_token i now hsb hts _ _ _

theorem mapsInv_getTokenForSession (o : RefreshOracle) (now : Nat) (sid : String)
    (s : PoolState) (h : MapsInv s) :
    MapsInv (getTokenForSession o now sid s).2 := by
  unfold getTokenForSession
  split
  · exact h
  split
  case _ b hb =>
    have h₁ := mapsInv_touch s h sid b hb now
    dsimp only
    split
    case _ tok hfind =>
      split
      case isTrue hcond =>
        split
        · exact h₁
        next na ei hr =>
          exact ⟨h₁.sbNodup, h₁.tsNodup, h₁.forward, h₁.backward⟩
      case isFalse hcond =>
        exact mapsInv_assignNewToken o now sid _ (mapsInv_releaseSession sid _ h₁)
          (releaseSession_lookup_self sid _)
    case _ hfind =>
      exact mapsInv_assignNewToken o now sid _ (mapsInv_releaseSession sid _ h₁)
        (releaseSession_lookup_self sid _)
  case _ hb =>
    exact mapsInv_assignNewToken o now sid s h hb

theorem mapsInv_disableTokenUntil (rt : String) (resetTime : Nat) (s : PoolState)
    (h : MapsInv s) : MapsInv (disableTokenUntil rt resetTime s) := by
  unfold disableTokenUntil
  dsimp only
  split
  case _ sid hsid =>
    exact mapsInv_releaseSession sid _ ⟨h.sbNodup, h.tsNodup, h.forward, h.backward⟩
  case _ hnone =>
    exact ⟨h.sbNodup, h.tsNodup, h.forward, h.backward⟩

theorem mapsInv_retokens (s : PoolState) (h : MapsInv s) (toks store : List Token)
    (us : List (String × UsageStat)) :
    MapsInv { tokens := toks, store := store, sessionBindings := s.sessionBindings,
              tokenSessions := s.tokenSessions, usageStats := us } :=
  ⟨h.sbNodup, h.tsNodup, h.forward, h.backward⟩

theorem mapsInv_disableToken (rt : String) (s : PoolState) (h : MapsInv s) :
    MapsInv (disableToken rt s) := by
  unfold disableToken
  dsimp only
  split
  case _ sid hsid =>
    exact mapsInv_retokens _
      (mapsInv_releaseSession sid _ (mapsInv_retokens s h _ _ _)) _ _ _
  case _ hnone =>
    exact ⟨h.sbNodup, h.tsNodup, h.forward, h.backward⟩

theorem mapsInv_handleRequestError (o : RefreshOracle) (now : Nat) (e : ErrObj)
    (rt : String) (sid : Option String) (s : PoolState) (h : MapsInv s) :
    MapsInv (handleRequestError o now e rt sid s).2 := by
  unfold handleRequestError
  split
  · have h₁ := mapsInv_disableTokenUntil rt (nextUtcMidnight now) s h
    split
    case _ S =>
      split
      · exact h₁
      · exact mapsInv_getTokenForSession o now S _ h₁
    case _ => exact h₁
  split
  · have h₁ := mapsInv_disableToken rt s h
    split
    case _ S =>
      split
      · exact h₁
      · exact mapsInv_getTokenForSession o now S _ h₁
    case _ => exact h₁
  · exact h

theorem mapsInv_foldl_release (l : List (String × Binding)) :
    ∀ s : PoolState, MapsInv s →
      MapsInv (l.foldl (fun st p => releaseSession p.1 st) s) := by
  induction l with
  | nil => intro s h; exact h
  | cons p rest ih => intro s h; exact ih _ (mapsInv_releaseSession p.1 s h)

theorem mapsInv_sessionCleanupTick (timeout now : Nat) (s : PoolState)
    (h : MapsInv s) : MapsInv (sessionCleanupTick timeout now s) :=
  mapsInv_foldl_release _ s h

theorem mapsInv_poolStep (s t : PoolState) (hstep : PoolStep s t) (h : MapsInv s) :
    MapsInv t := by
  cases hstep with
  | acquire o now sid s => exact mapsInv_getTokenForSession o now sid s h
  | release sid s => exact mapsInv_releaseSession sid s h
  | report o now e rt sid s => exact mapsInv_handleRequestError o now e rt sid s h
  | disable rt s => exact mapsInv_disableToken rt s h
  | disableUntil rt resetTime s => exact mapsInv_disableTokenUntil rt resetTime s h
  | cleanup now s => exact mapsInv_sessionCleanupTick SESSION_TIMEOUT now s h

theorem mapsInv_reachable (s₀ s : PoolState) (h0 : MapsInv s₀)
    (hr : PoolReachable s₀ s) : MapsInv s := by
  induction hr with
  | refl => exact h0
  | tail hsteps hstep ih => exact mapsInv_poolStep _ _ hstep ih

/-- C2: in every pool state reachable from the initial empty-binding
state through the public operations, the binding map is a partial
bijection: two live session bindings that reference the same credential
id are the same session, and each session id occurs at most once in the
binding map. -/
theorem antigravity_c2 (s₀ s : PoolState)
    (hsb : s₀.sessionBindings = []) (hts : s₀.tokenSessions = [])
    (hr : PoolReachable s₀ s) :
    (∀ sid₁ sid₂ b₁ b₂, mapLookup s.sessionBindings sid₁ = some b₁ →
      mapLookup s.sessionBindings sid₂ = some b₂ →
      b₁.refreshToken = b₂.refreshToken → sid₁ = sid₂) ∧
    (s.sessionBindings.map Prod.fst).Nodup := by
  have h0 : MapsInv s₀ := by
    constructor
    · rw [hsb]; exact List.nodup_nil
    · rw [hts]; exact List.nodup_nil
    · intro sid b hl; rw [hsb] at hl; cases hl
    · intro rt sid hl; rw [hts] at hl; cases hl
  have hI := mapsInv_reachable s₀ s h0 hr
  refine ⟨fun sid₁ sid₂ b₁ b₂ h1 h2 heq => ?_, hI.sbNodup⟩
  have f1 := hI.forward sid₁ b₁ h1
  have f2 := hI.forward sid₂ b₂ h2
  rw [heq, f2] at f1
  exact (Option.some.inj f1).symm

/-! Postconditions of a successful `getTokenForSession`. -/

theorem releaseSession_tokens (sid : String) (s : PoolState) :
    (releaseSession sid s).tokens = s.tokens := by
  unfold releaseSession; split <;> rfl

theorem releaseSession_store (sid : String) (s : PoolState) :
    (releaseSession sid s).store = s.store := by
  unfold releaseSession; split <;> rfl

theorem updateTokenIn_mem (l : List Token) (u t' : Token)
    (h : t' ∈ updateTokenIn l u) : t' = u ∨ t' ∈ l := by
  unfold updateTokenIn at h
  obtain ⟨x, hx, hfx⟩ := List.mem_map.mp h
  by_cases hc : (x.refresh_token == u.refresh_token) = true
  · rw [if_pos hc] at hfx; exact Or.inl hfx.symm
  · rw [if_neg hc] at hfx; exact Or.inr (hfx ▸ hx)

theorem refreshUpd_fields (now : Nat) (na : String) (ei : Nat) (t : Token) :
    (refreshUpd now na ei t).refresh_token = t.refresh_token ∧
    (refreshUpd now na ei t).enable = t.enable ∧
    (refreshUpd now na ei t).disabledUntil = t.disabledUntil :=
  ⟨rfl, rfl, rfl⟩

theorem assignNewToken_ok_shape (o : RefreshOracle) (now : Nat) (sid : String)
    (s : PoolState) (t : Token) (s' : PoolState)
    (h : assignNewToken o now sid s = (.ok t, s')) :
    ∃ i tok, findFreeToken now s = some (i, tok) ∧
      t.refresh_token = tok.refresh_token ∧
      mapLookup s'.sessionBindings sid =
        some { tokenIndex := i, refreshToken := t.refresh_token, lastAccessTime := now } ∧
      mapLookup s'.tokenSessions t.refresh_token = some sid ∧
      (∀ rt', rt' ≠ t.refresh_token →
        mapLookup s'.tokenSessions rt' = mapLookup s.tokenSessions rt') ∧
      (∀ t', t' ∈ s'.tokens → t' = t ∨ t' ∈ s.tokens) := by
  unfold assignNewToken at h
  split at h
  · simp at h
  next i tok hf =>
    split at h
    · simp at h
    next na ei hr =>
      rw [Prod.mk.injEq] at h
      obtain ⟨h1, h2⟩ := h
      have ht : (if isExpired now tok then refreshUpd now na ei tok else tok) = t := by
        injection h1
      subst h2
      refine ⟨i, tok, hf, ?_, ?_, ?_, ?_, ?_⟩
      · rw [← ht]; by_cases hx : isExpired now tok <;> simp [hx, refreshUpd]
      · rw [ht, mapLookup_mapSet, if_pos rfl]
      · rw [ht, mapLookup_mapSet, if_pos rfl]
      · intro rt' hne
        rw [ht, mapLookup_mapSet, if_neg (fun he => hne he.symm)]
      · intro t' hmem
        by_cases hx : isExpired now tok
        · rw [ht] at hmem
          simp only [hx, if_true] at hmem
          exact updateTokenIn_mem s.tokens t t' hmem
        · rw [ht] at hmem
          simp only [hx, if_false] at hmem
          exact Or.inr hmem

theorem assignNewToken_origin (o : RefreshOracle) (now : Nat) (sid : String)
    (s : PoolState) (t : Token) (s' : PoolState)
    (h : assignNewToken o now sid s = (.ok t, s')) :
    ∃ t₀, t₀ ∈ s.tokens ∧ t₀.refresh_token = t.refresh_token ∧ t₀.enable = true ∧
      isTokenDisabledByQuota now t₀ = false := by
  obtain ⟨i, tok, hf, hrt, -, -, -, -⟩ := assignNewToken_ok_shape o now sid s t s' h
  obtain ⟨hmem, hen, hq, -⟩ := findFreeToken_spec now s i tok hf
  exact ⟨tok, hmem, hrt.symm, hen, hq⟩

theorem assignNewToken_err_state (o : RefreshOracle) (now : Nat) (sid : String)
    (s : PoolState) (err : JsError) (s' : PoolState)
    (h : assignNewToken o now sid s = (.error err, s')) : s' = s := by
  unfold assignNewToken at h
  split at h
  · exact ((Prod.mk.injEq _ _ _ _ ▸ h).2).symm
  next i tok hf =>
    split at h
    · exact ((Prod.mk.injEq _ _ _ _ ▸ h).2).symm
    · simp at h

theorem assignNewToken_fields (o : RefreshOracle) (now : Nat) (sid : String)
    (s : PoolState) (t' : Token) (h : t' ∈ (assignNewToken o now sid s).2.tokens) :
    ∃ t₀, t₀ ∈ s.tokens ∧ t'.refresh_token = t₀.refresh_token ∧
      t'.enable = t₀.enable ∧ t'.disabledUntil = t₀.disabledUntil := by
  unfold assignNewToken at h
  split at h
  · exact ⟨t', h, rfl, rfl, rfl⟩
  next i tok hf =>
    obtain ⟨hmem, -, -, -⟩ := findFreeToken_spec now s i tok hf
    split at h
    · exact ⟨t', h, rfl, rfl, rfl⟩
    next na ei hr =>
      dsimp only at h
      by_cases hx : isExpired now tok
      · simp only [hx, if_true] at h
        rcases updateTokenIn_mem _ _ _ h with he | he
        · exact ⟨tok, hmem, by rw [he]; exact (refreshUpd_fields now na ei tok).1,
            by rw [he]; exact (refreshUpd_fields now na ei tok).2.1,
            by rw [he]; exact (refreshUpd_fields now na ei tok).2.2⟩
        · exact ⟨t', he, rfl, rfl, rfl⟩
      · simp only [hx, if_false] at h
        exact ⟨t', h, rfl, rfl, rfl⟩

theorem getTokenForSession_ok_sid (o : RefreshOracle) (now : Nat) (sid : String)
    (s : PoolState) (t : Token) (s' : PoolState)
    (h : getTokenForSession o now sid s = (.ok t, s')) : (sid == "") = false := by
  by_cases hs : (sid == "") = true
  · unfold getTokenForSession at h
    rw [if_pos hs] at h
    simp at h
  · exact Bool.not_eq_true _ ▸ hs

theorem getTokenForSession_binding (o : RefreshOracle) (now : Nat) (sid : String)
    (s : PoolState) (t : Token) (s' : PoolState)
    (h : getTokenForSession o now sid s = (.ok t, s')) :
    ∃ b : Binding, mapLookup s'.sessionBindings sid = some b ∧
      b.refreshToken = t.refresh_token := by
  have hs := getTokenForSession_ok_sid o now sid s t s' h
  unfold getTokenForSession at h
  rw [hs] at h
  simp only [Bool.false_eq_true, if_false] at h
  split at h
  case _ b hb =>
    split at h
    case _ tok hfind =>
      split at h
      case isTrue hcond =>
        split at h
        · simp at h
        next na ei hr =>
          rw [Prod.mk.injEq] at h
          obtain ⟨h1, h2⟩ := h
          have ht : (if isExpired now tok then refreshUpd now na ei tok else tok) = t := by
            injection h1
          have hrt : tok.refresh_token = b.refreshToken := by
            have := List.find?_some hfind
            exact eq_of_beq this
          have htrt : t.refresh_token = tok.refresh_token := by
            rw [← ht]; by_cases hx : isExpired now tok <;> simp [hx, refreshUpd]
          refine ⟨{ b with lastAccessTime := now }, ?_, ?_⟩
          · rw [← h2]
            show mapLookup (mapSet s.sessionBindings sid _) sid = _
            rw [mapLookup_mapSet, if_pos rfl]
          · show b.refreshToken = t.refresh_token
            rw [htrt, hrt]
      case isFalse hcond =>
        obtain ⟨i, tok', hf, hrt', hbind, -, -, -⟩ :=
          assignNewToken_ok_shape o now sid _ t s' h
        exact ⟨{ tokenIndex := i, refreshToken := t.refresh_token,
                 lastAccessTime := now }, hbind, rfl⟩
    case _ hfind =>
      obtain ⟨i, tok', hf, hrt', hbind, -, -, -⟩ :=
        assignNewToken_ok_shape o now sid _ t s' h
      exact ⟨{ tokenIndex := i, refreshToken := t.refresh_token,
               lastAccessTime := now }, hbind, rfl⟩
  case _ hb =>
    obtain ⟨i, tok', hf, hrt', hbind, -, -, -⟩ :=
      assignNewToken_ok_shape o now sid s t s' h
    exact ⟨{ tokenIndex := i, refreshToken := t.refresh_token,
             lastAccessTime := now }, hbind, rfl⟩

theorem getTokenForSession_origin (o : RefreshOracle) (now : Nat) (sid : String)
    (s : PoolState) (t : Token) (s' : PoolState)
    (h : getTokenForSession o now sid s = (.ok t, s')) :
    ∃ t₀, t₀ ∈ s.tokens ∧ t₀.refresh_token = t.refresh_token ∧ t₀.enable = true ∧
      isTokenDisabledByQuota now t₀ = false := by
  have hs := getTokenForSession_ok_sid o now sid s t s' h
  unfold getTokenForSession at h
  rw [hs] at h
  simp only [Bool.false_eq_true, if_false] at h
  split at h
  case _ b hb =>
    split at h
    case _ tok hfind =>
      split at h
      case isTrue hcond =>
        split at h
        · simp at h
        next na ei hr =>
          rw [Prod.mk.injEq] at h
          obtain ⟨h1, h2⟩ := h
          have ht : (if isExpired now tok then refreshUpd now na ei tok else tok) = t := by
            injection h1
          have htrt : t.refresh_token = tok.refresh_token := by
            rw [← ht]; by_cases hx : isExpired now tok <;> simp [hx, refreshUpd]
          rw [Bool.and_eq_true, Bool.not_eq_true'] at hcond
          exact ⟨tok, List.mem_of_find?_eq_some hfind, htrt.symm, hcond.1, hcond.2⟩
      case isFalse hcond =>
        obtain ⟨t₀, hmem, h1, h2, h3⟩ := assignNewToken_origin o now sid _ t s' h
        rw [releaseSession_tokens] at hmem
        exact ⟨t₀, hmem, h1, h2, h3⟩
    case _ hfind =>
      obtain ⟨t₀, hmem, h1, h2, h3⟩ := assignNewToken_origin o now sid _ t s' h
      rw [releaseSession_tokens] at hmem
      exact ⟨t₀, hmem, h1, h2, h3⟩
  case _ hb =>
    exact assignNewToken_origin o now sid s t s' h

theorem getTokenForSession_fields (o : RefreshOracle) (now : Nat) (sid : String)
    (s : PoolState) (t' : Token)
    (h : t' ∈ (getTokenForSession o now sid s).2.tokens) :
    ∃ t₀, t₀ ∈ s.tokens ∧ t'.refresh_token = t₀.refresh_token ∧
      t'.enable = t₀.enable ∧ t'.disabledUntil = t₀.disabledUntil := by
  unfold getTokenForSession at h
  split at h
  · exact ⟨t', h, rfl, rfl, rfl⟩
  split at h
  case _ b hb =>
    dsimp only at h
    split at h
    case _ tok hfind =>
      have htokmem : tok ∈ s.tokens := List.mem_of_find?_eq_some hfind
      split at h
      case isTrue hcond =>
        split at h
        · exact ⟨t', h, rfl, rfl, rfl⟩
        next na ei hr =>
          dsimp only at h
          by_cases hx : isExpired now tok
          · simp only [hx, if_true] at h
            rcases updateTokenIn_mem _ _ _ h with he | he
            · exact ⟨tok, htokmem, by rw [he]; rfl, by rw [he]; rfl, by rw [he]; rfl⟩
            · exact ⟨t', he, rfl, rfl, rfl⟩
          · simp only [hx, if_false] at h
            exact ⟨t', h, rfl, rfl, rfl⟩
      case isFalse hcond =>
        obtain ⟨t₀, hmem, h1, h2, h3⟩ := assignNewToken_fields o now sid _ t' h
        rw [releaseSession_tokens] at hmem
        exact ⟨t₀, hmem, h1, h2, h3⟩
    case _ hfind =>
      obtain ⟨t₀, hmem, h1, h2, h3⟩ := assignNewToken_fields o now sid _ t' h
      rw [releaseSession_tokens] at hmem
      exact ⟨t₀, hmem, h1, h2, h3⟩
  case _ hb =>
    exact assignNewToken_fields o now sid s t' h

/-- Witness for C2: the invariant instantiated at the freshly started
pool. -/
theorem antigravity_c2_witness :
    (∀ sid₁ sid₂ b₁ b₂,
        mapLookup (poolInit [] []).sessionBindings sid₁ = some b₁ →
        mapLookup (poolInit [] []).sessionBindings sid₂ = some b₂ →
        b₁.refreshToken = b₂.refreshToken → sid₁ = sid₂) ∧
    ((poolInit [] []).sessionBindings.map Prod.fst).Nodup :=
  antigravity_c2 (poolInit [] []) (poolInit [] []) rfl rfl
    Relation.ReflTransGen.refl

end Antigravity

namespace Antigravity

/-- C1: a repeated `getTokenForSession` for the same session id, with
no intervening failure report, disable or idle sweep, returns the same
credential id as the previous acquire, provided the bound credential is
still enabled and not quota-disabled at the second call and its refresh
(if due) succeeds. -/
theorem antigravity_c1 (o o₂ : RefreshOracle) (now now₂ : Nat) (sid : String)
    (s s₁ : PoolState) (t tok₂ : Token) (na : String) (ei : Nat)
    (h1 : getTokenForSession o now sid s = (.ok t, s₁))
    (hfind : s₁.tokens.find? (fun x => x.refresh_token == t.refresh_token) = some tok₂)
    (hen : tok₂.enable = true)
    (hq : isTokenDisabledByQuota now₂ tok₂ = false)
    (ho : o₂ tok₂.refresh_token = Except.ok (na, ei)) :
    ∃ t₂ s₂, getTokenForSession o₂ now₂ sid s₁ = (.ok t₂, s₂) ∧
      t₂.refresh_token = t.refresh_token := by
  obtain ⟨b, hbinding, hbrt⟩ := getTokenForSession_binding o now sid s t s₁ h1
  have hs := getTokenForSession_ok_sid o now sid s t s₁ h1
  have hpred := List.find?_some hfind
  have hrt2 : tok₂.refresh_token = t.refresh_token := by
    exact eq_of_beq hpred
  unfold getTokenForSession
  rw [hs]
  simp only [Bool.false_eq_true, if_false]
  rw [hbinding]
  dsimp only
  simp only [hbrt]
  rw [hfind]
  dsimp only
  rw [hen, hq]
  simp only [Bool.not_false, Bool.true_and, if_true]
  by_cases hx : isExpired now₂ tok₂
  · simp only [hx, if_true]
    rw [ho]
    exact ⟨refreshUpd now₂ na ei tok₂, _, rfl, hrt2⟩
  · simp only [hx, if_false]
    exact ⟨tok₂, _, rfl, hrt2⟩

/-- Witness for C1: a pool with one fresh credential, acquired twice
for session `s1`. -/
theorem antigravity_c1_witness :
    ∃ t₂ s₂,
      getTokenForSession (fun _ => Except.ok ("n", 3600)) 2000 "s1"
        (getTokenForSession (fun _ => Except.ok ("n", 3600)) 1000 "s1"
          (poolInit [⟨"A", "a0", 1000, 100000, true, none, false⟩]
                    [⟨"A", "a0", 1000, 100000, true, none, false⟩])).2
        = (.ok t₂, s₂) ∧
      t₂.refresh_token = "A" :=
  antigravity_c1 (fun _ => Except.ok ("n", 3600)) (fun _ => Except.ok ("n", 3600))
    1000 2000 "s1"
    (poolInit [⟨"A", "a0", 1000, 100000, true, none, false⟩]
              [⟨"A", "a0", 1000, 100000, true, none, false⟩])
    (getTokenForSession (fun _ => Except.ok ("n", 3600)) 1000 "s1"
      (poolInit [⟨"A", "a0", 1000, 100000, true, none, false⟩]
                [⟨"A", "a0", 1000, 100000, true, none, false⟩])).2
    ⟨"A", "a0", 1000, 100000, true, none, false⟩
    ⟨"A", "a0", 1000, 100000, true, none, false⟩ "n" 3600
    rfl rfl rfl rfl rfl

end Antigravity

namespace Antigravity

/-- C6: an error whose status code is none of 429/403/400 and whose
message does not indicate quota is re-raised unchanged by both
variants' `handleRequestError`, with no state transition. -/
theorem antigravity_c6 (o : RefreshOracle) (now : Nat) (e : ErrObj) (rt : String)
    (sid : Option String) (s : PoolState) (srr : RRState)
    (h429 : e.statusCode ≠ some 429) (h403 : e.statusCode ≠ some 403)
    (h400 : e.statusCode ≠ some 400) (hmsg : msgIndicatesQuota e = false) :
    handleRequestError o now e rt sid s = (.error (.thrown e), s) ∧
    rrHandleRequestError o now e rt srr = (.error (.thrown e), srr) := by
  have hqe : isQuotaError e = false := by
    unfold isQuotaError
    simp [hmsg, h429]
  constructor
  · unfold handleRequestError
    simp [hqe, h403]
  · unfold rrHandleRequestError
    simp [hqe, h403, h400]

/-- Witness for C6: a 500-class error on a one-credential pool of each
variant. -/
theorem antigravity_c6_witness :
    handleRequestError (fun _ => Except.ok ("n", 3600)) 0
      ⟨some 500, some "internal"⟩ "A" (some "s1")
      (poolInit [⟨"A", "a0", 1000, 100000, true, none, false⟩]
                [⟨"A", "a0", 1000, 100000, true, none, false⟩]) =
      (.error (.thrown ⟨some 500, some "internal"⟩),
        poolInit [⟨"A", "a0", 1000, 100000, true, none, false⟩]
                 [⟨"A", "a0", 1000, 100000, true, none, false⟩]) ∧
    rrHandleRequestError (fun _ => Except.ok ("n", 3600)) 0
      ⟨some 500, some "internal"⟩ "A"
      ⟨[⟨"A", "a0", 1000, 100000, true, none, false⟩],
       [⟨"A", "a0", 1000, 100000, true, none, false⟩], 0, []⟩ =
      (.error (.thrown ⟨some 500, some "internal"⟩),
        ⟨[⟨"A", "a0", 1000, 100000, true, none, false⟩],
         [⟨"A", "a0", 1000, 100000, true, none, false⟩], 0, []⟩) :=
  antigravity_c6 (fun _ => Except.ok ("n", 3600)) 0
    ⟨some 500, some "internal"⟩ "A" (some "s1")
    (poolInit [⟨"A", "a0", 1000, 100000, true, none, false⟩]
              [⟨"A", "a0", 1000, 100000, true, none, false⟩])
    ⟨[⟨"A", "a0", 1000, 100000, true, none, false⟩],
     [⟨"A", "a0", 1000, 100000, true, none, false⟩], 0, []⟩
    (by decide) (by decide) (by decide) (by decide)

end Antigravity

namespace Antigravity

theorem mem_of_mapLookup {β : Type} (m : List (String × β)) (k : String) (v : β)
    (h : mapLookup m k = some v) : (k, v) ∈ m := by
  unfold mapLookup at h
  cases hf : m.find? (fun p => p.1 == k) with
  | none => rw [hf] at h; cases h
  | some p =>
    rw [hf] at h
    have hp2 : p.2 = v := Option.some.inj h
    have hpred := List.find?_some hf
    have hp1 : p.1 = k := eq_of_beq hpred
    have := List.mem_of_find?_eq_some hf
    rw [← hp1, ← hp2]
    exact this

theorem mapLookup_of_mem_nodup {β : Type} (m : List (String × β)) (k : String)
    (v : β) (hn : (m.map Prod.fst).Nodup) (hmem : (k, v) ∈ m) :
    mapLookup m k = some v := by
  induction m with
  | nil => cases hmem
  | cons p rest ih =>
    rw [List.map_cons, List.nodup_cons] at hn
    rcases List.mem_cons.mp hmem with he | hm
    · rw [← he, mapLookup_cons, if_pos rfl]
    · have hne : p.1 ≠ k := by
        intro hpk
        exact hn.1 (hpk ▸ List.mem_map.mpr ⟨(k, v), hm, rfl⟩)
      rw [mapLookup_cons, if_neg hne]
      exact ih hn.2 hm

theorem releaseSession_lookup (k sid : String) (s : PoolState) :
    mapLookup (releaseSession k s).sessionBindings sid =
      if k = sid then none else mapLookup s.sessionBindings sid := by
  unfold releaseSession
  split
  case _ b hb =>
    rw [mapLookup_mapDelete]
  case _ hb =>
    by_cases hk : k = sid
    · rw [if_pos hk, ← hk, hb]
    · rw [if_neg hk]

theorem foldl_release_lookup (l : List (String × Binding)) :
    ∀ (s : PoolState) (sid : String),
      mapLookup ((l.foldl (fun st p => releaseSession p.1 st) s)).sessionBindings sid =
        if sid ∈ l.map Prod.fst then none else mapLookup s.sessionBindings sid := by
  induction l with
  | nil => intro s sid; simp
  | cons p rest ih =>
    intro s sid
    rw [List.foldl_cons, ih, releaseSession_lookup]
    by_cases h1 : sid ∈ rest.map Prod.fst <;> by_cases h2 : p.1 = sid <;>
      simp [h1, h2]
    rw [if_neg (fun hh => h2 (Eq.symm hh))]

/-- C9: one pass of the idle-session sweep with timeout `T` releases
exactly the bindings whose idle age `now - lastAccessAt` strictly
exceeds `T`, preserving every younger binding unchanged. -/
theorem antigravity_c9 (timeout now : Nat) (s : PoolState) (sid : String)
    (b : Binding) (hnodup : (s.sessionBindings.map Prod.fst).Nodup)
    (hb : mapLookup s.sessionBindings sid = some b) :
    mapLookup (sessionCleanupTick timeout now s).sessionBindings sid =
      (if timeout < now - b.lastAccessTime then none else some b) := by
  unfold sessionCleanupTick
  rw [foldl_release_lookup]
  by_cases hexp : timeout < now - b.lastAccessTime
  · rw [if_pos hexp, if_pos]
    exact List.mem_map.mpr
      ⟨(sid, b), List.mem_filter.mpr ⟨mem_of_mapLookup _ _ _ hb, by simpa using hexp⟩,
       rfl⟩
  · rw [if_neg hexp, if_neg, hb]
    intro hmem
    obtain ⟨q, hq, hq1⟩ := List.mem_map.mp hmem
    have hqmem := (List.mem_filter.mp hq).1
    have hqexp := (List.mem_filter.mp hq).2
    have : mapLookup s.sessionBindings sid = some q.2 := by
      have := mapLookup_of_mem_nodup s.sessionBindings q.1 q.2 hnodup
        (by exact hqmem)
      rw [hq1] at this
      exact this
    rw [hb] at this
    have hqb : q.2 = b := (Option.some.inj this).symm
    rw [hqb] at hqexp
    simp at hqexp
    exact hexp hqexp

/-- Witness for C9: with the default 30-minute timeout, a binding idle
for `T + 1` ms is released and one idle for `T - 1` ms is kept. -/
theorem antigravity_c9_witness :
    mapLookup (sessionCleanupTick SESSION_TIMEOUT 1800001
        (poolInit [] [] )).sessionBindings "s1" = none ∧
    mapLookup (sessionCleanupTick SESSION_TIMEOUT 1799999
        { tokens := [], store := [], sessionBindings := [("s1", ⟨0, "A", 0⟩)],
          tokenSessions := [("A", "s1")], usageStats := [] }).sessionBindings "s1" =
      some ⟨0, "A", 0⟩ := by
  constructor
  · have h := antigravity_c9 SESSION_TIMEOUT 1800001
      { tokens := [], store := [], sessionBindings := [("s1", ⟨0, "A", 0⟩)],
        tokenSessions := [("A", "s1")], usageStats := [] } "s1" ⟨0, "A", 0⟩
      (by decide) rfl
    rw [if_pos (by decide)] at h
    exact h
  · have h := antigravity_c9 SESSION_TIMEOUT 1799999
      { tokens := [], store := [], sessionBindings := [("s1", ⟨0, "A", 0⟩)],
        tokenSessions := [("A", "s1")], usageStats := [] } "s1" ⟨0, "A", 0⟩
      (by decide) rfl
    rw [if_neg (by decide)] at h
    exact h

end Antigravity

namespace Antigravity

/-- C10: the round-robin variant's `getUsageStats` throws a
`ReferenceError` whenever the token list is non-empty, because the
`availableTokens` filter callback reads the unbound identifier `token`;
with an empty token list the callback never runs and a snapshot is
returned. -/
theorem antigravity_c10 (now : Nat) (s : RRState) :
    (s.tokens ≠ [] → rrGetUsageStats now s =
      .error (.error "ReferenceError: token is not defined")) ∧
    (s.tokens = [] → ∃ snap, rrGetUsageStats now s = .ok snap) := by
  constructor
  · intro hne
    cases hts : s.tokens with
    | nil => exact absurd hts hne
    | cons a rest =>
      unfold rrGetUsageStats
      rw [hts]
      simp [exceptCount, availableFilterPred]
  · intro he
    unfold rrGetUsageStats
    rw [he]
    exact ⟨_, rfl⟩

/-- Witness for C10: a one-credential list throws, the empty list
returns a snapshot. -/
theorem antigravity_c10_witness :
    rrGetUsageStats 0
      ⟨[⟨"A", "a0", 1000, 100000, true, none, false⟩],
       [⟨"A", "a0", 1000, 100000, true, none, false⟩], 0, []⟩ =
      .error (.error "ReferenceError: token is not defined") ∧
    ∃ snap, rrGetUsageStats 0 ⟨[], [], 0, []⟩ = .ok snap :=
  ⟨(antigravity_c10 0
      ⟨[⟨"A", "a0", 1000, 100000, true, none, false⟩],
       [⟨"A", "a0", 1000, 100000, true, none, false⟩], 0, []⟩).1 (by simp),
   (antigravity_c10 0 ⟨[], [], 0, []⟩).2 rfl⟩

end Antigravity

namespace Antigravity

/-- C7: on the sticky reuse path the credential is refreshed exactly
when `now + 300000 >= issuedAt + ttl*1000` (the 5-minute margin): if it
is due, the returned record carries the oracle's fresh access secret
(different from the old one whenever the upstream mints a new value);
if it is strictly inside the margin, the record is returned unchanged
and no refresh happens. -/
theorem antigravity_c7 (o : RefreshOracle) (now : Nat) (sid : String)
    (s : PoolState) (b : Binding) (tok : Token) (na : String) (ei : Nat)
    (hsid : (sid == "") = false)
    (hb : mapLookup s.sessionBindings sid = some b)
    (hfind : s.tokens.find? (fun x => x.refresh_token == b.refreshToken) = some tok)
    (hen : tok.enable = true) (hq : isTokenDisabledByQuota now tok = false)
    (hts : tok.timestamp ≠ 0) (hei : tok.expires_in ≠ 0)
    (ho : o tok.refresh_token = Except.ok (na, ei))
    (hna : na ≠ tok.access_token) :
    ∃ t s', getTokenForSession o now sid s = (.ok t, s') ∧
      t.refresh_token = tok.refresh_token ∧
      (tok.timestamp + tok.expires_in * 1000 ≤ now + 300000 →
        t.access_token = na ∧ t.access_token ≠ tok.access_token) ∧
      (now + 300000 < tok.timestamp + tok.expires_in * 1000 →
        t = tok ∧ s'.tokens = s.tokens) := by
  have hexp_iff : isExpired now tok = true ↔
      tok.timestamp + tok.expires_in * 1000 ≤ now + 300000 := by
    unfold isExpired
    have h1 : (tok.timestamp == 0) = false := by simpa using hts
    have h2 : (tok.expires_in == 0) = false := by simpa using hei
    rw [h1, h2]
    simp [ge_iff_le]
  unfold getTokenForSession
  rw [hsid]
  simp only [Bool.false_eq_true, if_false]
  rw [hb]
  dsimp only
  rw [hfind]
  dsimp only
  rw [hen, hq]
  simp only [Bool.not_false, Bool.true_and, if_true]
  by_cases hx : isExpired now tok
  · simp only [hx, if_true]
    rw [ho]
    refine ⟨refreshUpd now na ei tok, _, rfl, rfl, ?_, ?_⟩
    · intro _
      exact ⟨rfl, hna⟩
    · intro hlt
      have := hexp_iff.mp hx
      omega
  · simp only [hx, if_false]
    refine ⟨tok, _, rfl, rfl, ?_, ?_⟩
    · intro hle
      exact absurd (hexp_iff.mpr hle) hx
    · intro _
      exact ⟨rfl, rfl⟩

/-- Witness for C7: the spec scenario, a credential issued 3600 s ago
with a 3500 s ttl is refreshed on acquire and returns the fresh
secret. -/
theorem antigravity_c7_witness :
    ∃ t s', getTokenForSession (fun _ => Except.ok ("fresh", 3599)) 4000000 "s1"
        { tokens := [⟨"A", "old", 400000, 3500, true, none, false⟩],
          store := [⟨"A", "old", 400000, 3500, true, none, false⟩],
          sessionBindings := [("s1", ⟨0, "A", 0⟩)],
          tokenSessions := [("A", "s1")], usageStats := [] } = (.ok t, s') ∧
      t.refresh_token = "A" ∧
      (400000 + 3500 * 1000 ≤ 4000000 + 300000 →
        t.access_token = "fresh" ∧ t.access_token ≠ "old") ∧
      (4000000 + 300000 < 400000 + 3500 * 1000 →
        t = ⟨"A", "old", 400000, 3500, true, none, false⟩ ∧
        s'.tokens = [⟨"A", "old", 400000, 3500, true, none, false⟩]) :=
  antigravity_c7 (fun _ => Except.ok ("fresh", 3599)) 4000000 "s1"
    { tokens := [⟨"A", "old", 400000, 3500, true, none, false⟩],
      store := [⟨"A", "old", 400000, 3500, true, none, false⟩],
      sessionBindings := [("s1", ⟨0, "A", 0⟩)],
      tokenSessions := [("A", "s1")], usageStats := [] }
    ⟨0, "A", 0⟩ ⟨"A", "old", 400000, 3500, true, none, false⟩ "fresh" 3599
    rfl rfl rfl rfl rfl (by decide) (by decide) rfl (by decide)

end Antigravity

namespace Antigravity

theorem nextUtcMidnight_gt (now : Nat) : now < nextUtcMidnight now := by
  unfold nextUtcMidnight
  omega

theorem mapsInv_single (sid rt : String) (i la : Nat) (toks store : List Token)
    (us : List (String × UsageStat)) :
    MapsInv { tokens := toks, store := store,
              sessionBindings := [(sid, ⟨i, rt, la⟩)],
              tokenSessions := [(rt, sid)], usageStats := us } := by
  constructor
  · simp
  · simp
  · intro sid' b hl
    rw [mapLookup_cons] at hl
    by_cases hs : sid = sid'
    · rw [if_pos hs] at hl
      have hb : b = ⟨i, rt, la⟩ := (Option.some.inj hl).symm
      rw [hb]
      show mapLookup [(rt, sid)] rt = some sid'
      rw [mapLookup_cons, if_pos rfl, hs]
    · rw [if_neg hs] at hl
      simp [mapLookup] at hl
  · intro rt' sid' hl
    rw [mapLookup_cons] at hl
    by_cases hr : rt = rt'
    · rw [if_pos hr] at hl
      have hs : sid' = sid := (Option.some.inj hl).symm
      exact ⟨⟨i, rt, la⟩, by rw [hs, mapLookup_cons, if_pos rfl], hr⟩
    · rw [if_neg hr] at hl
      simp [mapLookup] at hl

theorem marked_of_mem_disableMap (rt : String) (resetTime : Nat) (l : List Token)
    (t : Token)
    (ht : t ∈ l.map (fun x =>
      if x.refresh_token == rt then disableUntilUpd resetTime x else x))
    (hrt : t.refresh_token = rt) : t.disabledUntil = some resetTime := by
  obtain ⟨x, hx, hfx⟩ := List.mem_map.mp ht
  by_cases hc : (x.refresh_token == rt) = true
  · rw [if_pos hc] at hfx
    rw [← hfx]
    rfl
  · rw [if_neg hc] at hfx
    rw [← hfx] at hrt
    exact absurd (beq_iff_eq.mpr hrt) hc

theorem disableTokenUntil_tokens_marked (rt : String) (resetTime : Nat)
    (s : PoolState) (t : Token) (ht : t ∈ (disableTokenUntil rt resetTime s).tokens)
    (hrt : t.refresh_token = rt) : t.disabledUntil = some resetTime := by
  unfold disableTokenUntil at ht
  dsimp only at ht
  split at ht
  · rw [releaseSession_tokens] at ht
    exact marked_of_mem_disableMap rt resetTime s.tokens t ht hrt
  · exact marked_of_mem_disableMap rt resetTime s.tokens t ht hrt

theorem disableTokenUntil_ts_none (rt : String) (resetTime : Nat) (s : PoolState)
    (hInv : MapsInv s) :
    mapLookup (disableTokenUntil rt resetTime s).tokenSessions rt = none := by
  unfold disableTokenUntil
  dsimp only
  split
  case _ sid hsid =>
    obtain ⟨b, hbs, hbrt⟩ := hInv.backward rt sid hsid
    unfold releaseSession
    dsimp only
    rw [hbs]
    dsimp only
    rw [mapLookup_mapDelete, if_pos hbrt]
  case _ hnone => exact hnone

theorem disableTokenUntil_sb_self_none (crt : String) (resetTime : Nat)
    (S : String) (s : PoolState) (hInv : MapsInv s) (b : Binding)
    (hbind : mapLookup s.sessionBindings S = some b)
    (hbrt : b.refreshToken = crt) :
    mapLookup (disableTokenUntil crt resetTime s).sessionBindings S = none := by
  have hts : mapLookup s.tokenSessions crt = some S := by
    rw [← hbrt]; exact hInv.forward S b hbind
  unfold disableTokenUntil
  dsimp only
  split
  case _ sid hsid =>
    have hSsid : sid = S := by
      rw [hts] at hsid
      exact (Option.some.inj hsid).symm
    rw [hSsid, releaseSession_lookup, if_pos rfl]
  case _ hnone =>
    rw [hts] at hnone
    cases hnone

theorem getTokenForSession_unbound (o : RefreshOracle) (now : Nat) (sid : String)
    (s : PoolState) (hsid : (sid == "") = false)
    (hb : mapLookup s.sessionBindings sid = none) :
    getTokenForSession o now sid s = assignNewToken o now sid s := by
  unfold getTokenForSession
  rw [hsid]
  simp only [Bool.false_eq_true, if_false]
  rw [hb]

theorem assignNewToken_none (o : RefreshOracle) (now : Nat) (sid : String)
    (s : PoolState) (hf : findFreeToken now s = none) :
    assignNewToken o now sid s =
      (.error (.error "No available tokens. All tokens are either in use or disabled."), s) := by
  unfold assignNewToken
  rw [hf]

theorem assignNewToken_some (o : RefreshOracle) (now : Nat) (sid : String)
    (s : PoolState) (i : Nat) (tok : Token)
    (hf : findFreeToken now s = some (i, tok))
    (horacle : ∀ r, ∃ p, o r = Except.ok p) :
    ∃ t s', assignNewToken o now sid s = (.ok t, s') ∧
      t.refresh_token = tok.refresh_token := by
  unfold assignNewToken
  rw [hf]
  dsimp only
  by_cases hx : isExpired now tok
  · obtain ⟨⟨na, ei⟩, ho⟩ := horacle tok.refresh_token
    simp only [hx, if_true]
    rw [ho]
    exact ⟨refreshUpd now na ei tok, _, rfl, rfl⟩
  · simp only [hx, if_false]
    exact ⟨tok, _, rfl, rfl⟩

theorem no_acquire_of_marked (s' : PoolState) (crt : String) (m : Nat)
    (hmark : ∀ t ∈ s'.tokens, t.refresh_token = crt → t.disabledUntil = some m)
    (o₂ : RefreshOracle) (now₂ : Nat) (sid₂ : String) (t₂ : Token)
    (hlt : now₂ < m)
    (h : (getTokenForSession o₂ now₂ sid₂ s').1 = .ok t₂) :
    t₂.refresh_token ≠ crt := by
  intro hrt
  have hpair : getTokenForSession o₂ now₂ sid₂ s' =
      (.ok t₂, (getTokenForSession o₂ now₂ sid₂ s').2) :=
    Prod.ext_iff.mpr ⟨h, rfl⟩
  obtain ⟨t₀, hmem, hrt0, hen0, hq0⟩ :=
    getTokenForSession_origin o₂ now₂ sid₂ s' t₂ _ hpair
  have hd : t₀.disabledUntil = some m := hmark t₀ hmem (by rw [hrt0, hrt])
  unfold isTokenDisabledByQuota at hq0
  rw [hd] at hq0
  simp at hq0
  omega

end Antigravity

namespace Antigravity

/-- C3 (amended): a quota-classified failure report (status 429 or a
quota message) for a bound credential cools that credential down to the
next UTC midnight, removes every binding that references it, keeps it
away from every acquire issued before that instant, and immediately
reassigns the reporting session the first eligible credential with no
live binding if one exists, else fails with the pool-exhausted
error. -/
theorem antigravity_c3 (o : RefreshOracle) (now : Nat) (e : ErrObj)
    (crt S : String) (s : PoolState) (b : Binding)
    (hq : isQuotaError e = true) (hS : (S == "") = false)
    (hInv : MapsInv s)
    (hbind : mapLookup s.sessionBindings S = some b)
    (hbrt : b.refreshToken = crt)
    (horacle : ∀ r, ∃ p, o r = Except.ok p) :
    (∀ t ∈ (handleRequestError o now e crt (some S) s).2.tokens,
        t.refresh_token = crt → t.disabledUntil = some (nextUtcMidnight now)) ∧
    mapLookup (handleRequestError o now e crt (some S) s).2.tokenSessions crt
      = none ∧
    (∀ (o₂ : RefreshOracle) (now₂ : Nat) (sid₂ : String) (t₂ : Token),
        now₂ < nextUtcMidnight now →
        (getTokenForSession o₂ now₂ sid₂
          (handleRequestError o now e crt (some S) s).2).1 = .ok t₂ →
        t₂.refresh_token ≠ crt) ∧
    (findFreeToken now (disableTokenUntil crt (nextUtcMidnight now) s) = none →
      (handleRequestError o now e crt (some S) s).1 =
        .error (.error "No available tokens. All tokens are either in use or disabled.")) ∧
    (∀ (i : Nat) (ftok : Token),
        findFreeToken now (disableTokenUntil crt (nextUtcMidnight now) s)
          = some (i, ftok) →
        ∃ t, (handleRequestError o now e crt (some S) s).1 = .ok t ∧
          t.refresh_token = ftok.refresh_token ∧ t.refresh_token ≠ crt) := by
  have hred : handleRequestError o now e crt (some S) s =
      getTokenForSession o now S (disableTokenUntil crt (nextUtcMidnight now) s) := by
    unfold handleRequestError
    rw [if_pos hq]
    dsimp only
    rw [hS]
    simp only [Bool.false_eq_true, if_false]
  have hsb₁ :=
    disableTokenUntil_sb_self_none crt (nextUtcMidnight now) S s hInv b hbind hbrt
  have hts₁ := disableTokenUntil_ts_none crt (nextUtcMidnight now) s hInv
  have hmark₁ : ∀ t ∈ (disableTokenUntil crt (nextUtcMidnight now) s).tokens,
      t.refresh_token = crt → t.disabledUntil = some (nextUtcMidnight now) :=
    fun t ht hrt => disableTokenUntil_tokens_marked crt _ s t ht hrt
  have hunb := getTokenForSession_unbound o now S _ hS hsb₁
  rw [hred, hunb]
  rcases hf : findFreeToken now (disableTokenUntil crt (nextUtcMidnight now) s)
    with _ | ⟨i, ftok⟩
  · rw [assignNewToken_none o now S _ hf]
    refine ⟨hmark₁, hts₁, ?_, fun _ => rfl, ?_⟩
    · intro o₂ now₂ sid₂ t₂ hlt h2
      exact no_acquire_of_marked _ crt _ hmark₁ o₂ now₂ sid₂ t₂ hlt h2
    · intro i ftok hf'
      cases hf'
  · obtain ⟨t, s₂, hok, hrtt⟩ := assignNewToken_some o now S _ i ftok hf horacle
    rw [hok]
    obtain ⟨hfmem, hfen, hfq, hfts⟩ := findFreeToken_spec now _ i ftok hf
    have hftokrt : ftok.refresh_token ≠ crt := by
      intro hcrt
      have hd := hmark₁ ftok hfmem hcrt
      unfold isTokenDisabledByQuota at hfq
      rw [hd] at hfq
      simp at hfq
      have := nextUtcMidnight_gt now
      omega
    have htne : t.refresh_token ≠ crt := by rw [hrtt]; exact hftokrt
    have hmark₂ : ∀ t' ∈ s₂.tokens, t'.refresh_token = crt →
        t'.disabledUntil = some (nextUtcMidnight now) := by
      intro t' ht' hrt'
      have hmem2 : t' ∈ (assignNewToken o now S
          (disableTokenUntil crt (nextUtcMidnight now) s)).2.tokens := by
        rw [hok]; exact ht'
      obtain ⟨t₀, h0mem, h0rt, h0en, h0d⟩ :=
        assignNewToken_fields o now S _ t' hmem2
      rw [h0d]
      exact hmark₁ t₀ h0mem (by rw [← h0rt, hrt'])
    obtain ⟨i', tok', hf2, hrt2, hbind2, hts2self, htspres, -⟩ :=
      assignNewToken_ok_shape o now S _ t s₂ hok
    refine ⟨hmark₂, ?_, ?_, ?_, ?_⟩
    · exact (htspres crt (Ne.symm htne)).trans hts₁
    · intro o₂ now₂ sid₂ t₂ hlt h2
      exact no_acquire_of_marked _ crt _ hmark₂ o₂ now₂ sid₂ t₂ hlt h2
    · intro h4
      cases h4
    · intro i'' ftok'' hf''
      have hpair := Option.some.inj hf''
      have hfeq : ftok = ftok'' := congrArg Prod.snd hpair
      exact ⟨t, rfl, by rw [hrtt, hfeq], htne⟩

/-- Witness for C3: a two-credential pool where session `s1` holds `A`,
`A` reports a 429 and `s1` fails over to the free credential `B`. -/
theorem antigravity_c3_witness :
    (∀ t ∈ (handleRequestError (fun _ => Except.ok ("n", 3600)) 0
        ⟨some 429, none⟩ "A" (some "s1")
        { tokens := [⟨"A", "a0", 1000, 100000, true, none, false⟩,
                     ⟨"B", "b0", 1000, 100000, true, none, false⟩],
          store := [⟨"A", "a0", 1000, 100000, true, none, false⟩,
                    ⟨"B", "b0", 1000, 100000, true, none, false⟩],
          sessionBindings := [("s1", ⟨0, "A", 0⟩)],
          tokenSessions := [("A", "s1")], usageStats := [] }).2.tokens,
        t.refresh_token = "A" → t.disabledUntil = some (nextUtcMidnight 0)) ∧
    mapLookup (handleRequestError (fun _ => Except.ok ("n", 3600)) 0
        ⟨some 429, none⟩ "A" (some "s1")
        { tokens := [⟨"A", "a0", 1000, 100000, true, none, false⟩,
                     ⟨"B", "b0", 1000, 100000, true, none, false⟩],
          store := [⟨"A", "a0", 1000, 100000, true, none, false⟩,
                    ⟨"B", "b0", 1000, 100000, true, none, false⟩],
          sessionBindings := [("s1", ⟨0, "A", 0⟩)],
          tokenSessions := [("A", "s1")], usageStats := [] }).2.tokenSessions "A"
      = none ∧
    (∀ (o₂ : RefreshOracle) (now₂ : Nat) (sid₂ : String) (t₂ : Token),
        now₂ < nextUtcMidnight 0 →
        (getTokenForSession o₂ now₂ sid₂
          (handleRequestError (fun _ => Except.ok ("n", 3600)) 0
            ⟨some 429, none⟩ "A" (some "s1")
            { tokens := [⟨"A", "a0", 1000, 100000, true, none, false⟩,
                         ⟨"B", "b0", 1000, 100000, true, none, false⟩],
              store := [⟨"A", "a0", 1000, 100000, true, none, false⟩,
                        ⟨"B", "b0", 1000, 100000, true, none, false⟩],
              sessionBindings := [("s1", ⟨0, "A", 0⟩)],
              tokenSessions := [("A", "s1")], usageStats := [] }).2).1 = .ok t₂ →
        t₂.refresh_token ≠ "A") ∧
    (findFreeToken 0 (disableTokenUntil "A" (nextUtcMidnight 0)
        { tokens := [⟨"A", "a0", 1000, 100000, true, none, false⟩,
                     ⟨"B", "b0", 1000, 100000, true, none, false⟩],
          store := [⟨"A", "a0", 1000, 100000, true, none, false⟩,
                    ⟨"B", "b0", 1000, 100000, true, none, false⟩],
          sessionBindings := [("s1", ⟨0, "A", 0⟩)],
          tokenSessions := [("A", "s1")], usageStats := [] }) = none →
      (handleRequestError (fun _ => Except.ok ("n", 3600)) 0
        ⟨some 429, none⟩ "A" (some "s1")
        { tokens := [⟨"A", "a0", 1000, 100000, true, none, false⟩,
                     ⟨"B", "b0", 1000, 100000, true, none, false⟩],
          store := [⟨"A", "a0", 1000, 100000, true, none, false⟩,
                    ⟨"B", "b0", 1000, 100000, true, none, false⟩],
          sessionBindings := [("s1", ⟨0, "A", 0⟩)],
          tokenSessions := [("A", "s1")], usageStats := [] }).1 =
        .error (.error "No available tokens. All tokens are either in use or disabled.")) ∧
    (∀ (i : Nat) (ftok : Token),
        findFreeToken 0 (disableTokenUntil "A" (nextUtcMidnight 0)
          { tokens := [⟨"A", "a0", 1000, 100000, true, none, false⟩,
                       ⟨"B", "b0", 1000, 100000, true, none, false⟩],
            store := [⟨"A", "a0", 1000, 100000, true, none, false⟩,
                      ⟨"B", "b0", 1000, 100000, true, none, false⟩],
            sessionBindings := [("s1", ⟨0, "A", 0⟩)],
            tokenSessions := [("A", "s1")], usageStats := [] }) = some (i, ftok) →
        ∃ t, (handleRequestError (fun _ => Except.ok ("n", 3600)) 0
          ⟨some 429, none⟩ "A" (some "s1")
          { tokens := [⟨"A", "a0", 1000, 100000, true, none, false⟩,
                       ⟨"B", "b0", 1000, 100000, true, none, false⟩],
            store := [⟨"A", "a0", 1000, 100000, true, none, false⟩,
                      ⟨"B", "b0", 1000, 100000, true, none, false⟩],
            sessionBindings := [("s1", ⟨0, "A", 0⟩)],
            tokenSessions := [("A", "s1")], usageStats := [] }).1 = .ok t ∧
          t.refresh_token = ftok.refresh_token ∧ t.refresh_token ≠ "A") :=
  antigravity_c3 (fun _ => Except.ok ("n", 3600)) 0 ⟨some 429, none⟩ "A" "s1"
    { tokens := [⟨"A", "a0", 1000, 100000, true, none, false⟩,
                 ⟨"B", "b0", 1000, 100000, true, none, false⟩],
      store := [⟨"A", "a0", 1000, 100000, true, none, false⟩,
                ⟨"B", "b0", 1000, 100000, true, none, false⟩],
      sessionBindings := [("s1", ⟨0, "A", 0⟩)],
      tokenSessions := [("A", "s1")], usageStats := [] }
    ⟨0, "A", 0⟩ (by decide) rfl
    (mapsInv_single "s1" "A" 0 0 _ _ _)
    rfl rfl (fun r => ⟨("n", 3600), rfl⟩)

/-- C3 counterexample to the claim as stated: after the 429 report the
reassignment fails with the pool-exhausted error even though a
different eligible credential (`B`, enabled and not cooled down) still
exists, because `B` is bound to another session. -/
theorem antigravity_c3_counterexample :
    (handleRequestError (fun _ => Except.ok ("n", 3600)) 0
        ⟨some 429, none⟩ "A" (some "s1")
        { tokens := [⟨"A", "a0", 1000, 100000, true, none, false⟩,
                     ⟨"B", "b0", 1000, 100000, true, none, false⟩],
          store := [⟨"A", "a0", 1000, 100000, true, none, false⟩,
                    ⟨"B", "b0", 1000, 100000, true, none, false⟩],
          sessionBindings := [("s1", ⟨0, "A", 0⟩), ("s2", ⟨1, "B", 0⟩)],
          tokenSessions := [("A", "s1"), ("B", "s2")], usageStats := [] }).1 =
      .error (.error "No available tokens. All tokens are either in use or disabled.") ∧
    (∃ t ∈ (handleRequestError (fun _ => Except.ok ("n", 3600)) 0
        ⟨some 429, none⟩ "A" (some "s1")
        { tokens := [⟨"A", "a0", 1000, 100000, true, none, false⟩,
                     ⟨"B", "b0", 1000, 100000, true, none, false⟩],
          store := [⟨"A", "a0", 1000, 100000, true, none, false⟩,
                    ⟨"B", "b0", 1000, 100000, true, none, false⟩],
          sessionBindings := [("s1", ⟨0, "A", 0⟩), ("s2", ⟨1, "B", 0⟩)],
          tokenSessions := [("A", "s1"), ("B", "s2")], usageStats := [] }).2.tokens,
      t.enable = true ∧ isTokenDisabledByQuota 0 t = false ∧
        t.refresh_token ≠ "A") := by
  constructor
  · rfl
  · exact ⟨⟨"B", "b0", 1000, 100000, true, none, false⟩, by decide, rfl, rfl,
      by decide⟩

end Antigravity

namespace Antigravity

/-! Retirement of a credential id (claim C4): the `NoCred` invariant
and its preservation by every public operation. -/

theorem saveStore_crt_pres {P : Token → Prop} (crt : String) (X store : List Token)
    (hX : ∀ t ∈ X, t.refresh_token ≠ crt)
    (hstore : ∀ t ∈ store, t.refresh_token = crt → P t) :
    ∀ t ∈ saveStore X store, t.refresh_token = crt → P t := by
  intro t ht hrt
  unfold saveStore at ht
  obtain ⟨x, hx, hfx⟩ := List.mem_map.mp ht
  cases hfind : X.find? (fun m => m.refresh_token == x.refresh_token) with
  | none =>
    rw [hfind] at hfx
    simp only [Option.getD_none] at hfx
    rw [← hfx]
    exact hstore x hx (by rw [hfx]; exact hrt)
  | some y =>
    rw [hfind] at hfx
    simp only [Option.getD_some] at hfx
    have hy : y ∈ X := List.mem_of_find?_eq_some hfind
    exact absurd (hfx ▸ hrt) (hX y hy)

theorem updateTokenIn_rt_sub (l : List Token) (u : Token)
    (hu : ∃ t₀ ∈ l, u.refresh_token = t₀.refresh_token) :
    ∀ t ∈ updateTokenIn l u, ∃ t₀ ∈ l, t.refresh_token = t₀.refresh_token := by
  intro t ht
  rcases updateTokenIn_mem l u t ht with he | he
  · exact he ▸ hu
  · exact ⟨t, he, rfl⟩

theorem assignNewToken_store_crt_pres {P : Token → Prop} (o : RefreshOracle)
    (now : Nat) (sid : String) (s : PoolState) (crt : String)
    (hnc : ∀ t ∈ s.tokens, t.refresh_token ≠ crt)
    (hstore : ∀ t ∈ s.store, t.refresh_token = crt → P t) :
    ∀ t ∈ (assignNewToken o now sid s).2.store, t.refresh_token = crt → P t := by
  unfold assignNewToken
  split
  · exact hstore
  next i tok hf =>
    obtain ⟨hmem, -, -, -⟩ := findFreeToken_spec now s i tok hf
    split
    · exact hstore
    next na ei hr =>
      dsimp only
      by_cases hx : isExpired now tok
      · simp only [hx, if_true]
        refine saveStore_crt_pres crt _ s.store ?_ hstore
        intro t ht
        obtain ⟨t₀, h0, hrt0⟩ := updateTokenIn_rt_sub s.tokens _
          ⟨tok, hmem, by by_cases hy : isExpired now tok <;> simp [hy, refreshUpd]⟩
          t ht
        rw [hrt0]
        exact hnc t₀ h0
      · simp only [hx, if_false]
        exact hstore

theorem getTokenForSession_store_crt_pres {P : Token → Prop} (o : RefreshOracle)
    (now : Nat) (sid : String) (s : PoolState) (crt : String)
    (hnc : ∀ t ∈ s.tokens, t.refresh_token ≠ crt)
    (hstore : ∀ t ∈ s.store, t.refresh_token = crt → P t) :
    ∀ t ∈ (getTokenForSession o now sid s).2.store, t.refresh_token = crt → P t := by
  unfold getTokenForSession
  split
  · exact hstore
  split
  case _ b hb =>
    dsimp only
    split
    case _ tok hfind =>
      have htokmem : tok ∈ s.tokens := List.mem_of_find?_eq_some hfind
      split
      case isTrue hcond =>
        split
        · exact hstore
        next na ei hr =>
          dsimp only
          by_cases hx : isExpired now tok
          · simp only [hx, if_true]
            refine saveStore_crt_pres crt _ s.store ?_ hstore
            intro t ht
            obtain ⟨t₀, h0, hrt0⟩ := updateTokenIn_rt_sub s.tokens _
              ⟨tok, htokmem, by by_cases hy : isExpired now tok <;>
                simp [hy, refreshUpd]⟩ t ht
            rw [hrt0]
            exact hnc t₀ h0
          · simp only [hx, if_false]
            exact hstore
      case isFalse hcond =>
        refine assignNewToken_store_crt_pres o now sid _ crt ?_ ?_
        · rw [releaseSession_tokens]; exact hnc
        · rw [releaseSession_store]; exact hstore
    case _ hfind =>
      refine assignNewToken_store_crt_pres o now sid _ crt ?_ ?_
      · rw [releaseSession_tokens]; exact hnc
      · rw [releaseSession_store]; exact hstore
  case _ hb =>
    exact assignNewToken_store_crt_pres o now sid s crt hnc hstore

theorem releaseSession_ts_pres (sid crt : String) (s : PoolState)
    (hn : mapLookup s.tokenSessions crt = none) :
    mapLookup (releaseSession sid s).tokenSessions crt = none := by
  unfold releaseSession
  split
  case _ b hb =>
    rw [mapLookup_mapDelete]
    by_cases he : b.refreshToken = crt
    · rw [if_pos he]
    · rw [if_neg he]; exact hn
  case _ => exact hn

theorem assignNewToken_ts_none (o : RefreshOracle) (now : Nat) (sid : String)
    (s : PoolState) (crt : String)
    (hn : mapLookup s.tokenSessions crt = none)
    (hnc : ∀ t ∈ s.tokens, t.refresh_token ≠ crt) :
    mapLookup (assignNewToken o now sid s).2.tokenSessions crt = none := by
  unfold assignNewToken
  split
  · exact hn
  next i tok hf =>
    obtain ⟨hmem, -, -, -⟩ := findFreeToken_spec now s i tok hf
    split
    · exact hn
    next na ei hr =>
      dsimp only
      rw [mapLookup_mapSet]
      have hne : (if isExpired now tok then refreshUpd now na ei tok
          else tok).refresh_token ≠ crt := by
        have : (if isExpired now tok then refreshUpd now na ei tok
            else tok).refresh_token = tok.refresh_token := by
          by_cases hy : isExpired now tok <;> simp [hy, refreshUpd]
        rw [this]
        exact hnc tok hmem
      rw [if_neg hne]
      exact hn

theorem getTokenForSession_ts_none (o : RefreshOracle) (now : Nat) (sid : String)
    (s : PoolState) (crt : String)
    (hn : mapLookup s.tokenSessions crt = none)
    (hnc : ∀ t ∈ s.tokens, t.refresh_token ≠ crt) :
    mapLookup (getTokenForSession o now sid s).2.tokenSessions crt = none := by
  unfold getTokenForSession
  split
  · exact hn
  split
  case _ b hb =>
    dsimp only
    split
    case _ tok hfind =>
      split
      case isTrue hcond =>
        split
        · exact hn
        next na ei hr => exact hn
      case isFalse hcond =>
        refine assignNewToken_ts_none o now sid _ crt ?_ ?_
        · exact releaseSession_ts_pres sid crt _ hn
        · rw [releaseSession_tokens]; exact hnc
    case _ hfind =>
      refine assignNewToken_ts_none o now sid _ crt ?_ ?_
      · exact releaseSession_ts_pres sid crt _ hn
      · rw [releaseSession_tokens]; exact hnc
  case _ hb =>
    exact assignNewToken_ts_none o now sid s crt hn hnc

end Antigravity

namespace Antigravity

theorem nocred_releaseSession (crt sid : String) (s : PoolState)
    (h : NoCred crt s) : NoCred crt (releaseSession sid s) := by
  refine ⟨?_, ?_⟩
  · rw [releaseSession_tokens]; exact h.1
  · rw [releaseSession_store]; exact h.2

theorem nocred_assignNewToken (crt : String) (o : RefreshOracle) (now : Nat)
    (sid : String) (s : PoolState) (h : NoCred crt s) :
    NoCred crt (assignNewToken o now sid s).2 := by
  refine ⟨?_, assignNewToken_store_crt_pres o now sid s crt h.1 h.2⟩
  intro t' ht'
  obtain ⟨t₀, h0, hrt0, -, -⟩ := assignNewToken_fields o now sid s t' ht'
  rw [hrt0]
  exact h.1 t₀ h0

theorem nocred_getTokenForSession (crt : String) (o : RefreshOracle) (now : Nat)
    (sid : String) (s : PoolState) (h : NoCred crt s) :
    NoCred crt (getTokenForSession o now sid s).2 := by
  refine ⟨?_, getTokenForSession_store_crt_pres o now sid s crt h.1 h.2⟩
  intro t' ht'
  obtain ⟨t₀, h0, hrt0, -, -⟩ := getTokenForSession_fields o now sid s t' ht'
  rw [hrt0]
  exact h.1 t₀ h0

theorem nocred_disableTokenUntil (crt rt : String) (resetTime : Nat)
    (s : PoolState) (h : NoCred crt s) :
    NoCred crt (disableTokenUntil rt resetTime s) := by
  have htokens : ∀ t ∈ s.tokens.map (fun x =>
      if x.refresh_token == rt then disableUntilUpd resetTime x else x),
      t.refresh_token ≠ crt := by
    intro t ht
    obtain ⟨x, hx, hfx⟩ := List.mem_map.mp ht
    have : t.refresh_token = x.refresh_token := by
      rw [← hfx]
      by_cases hc : (x.refresh_token == rt) = true <;> simp [hc, disableUntilUpd]
    rw [this]
    exact h.1 x hx
  have hstore : ∀ t ∈ saveStore (s.tokens.map (fun x =>
      if x.refresh_token == rt then disableUntilUpd resetTime x else x)) s.store,
      t.refresh_token = crt → t.enable = false :=
    saveStore_crt_pres crt _ s.store htokens h.2
  unfold disableTokenUntil
  dsimp only
  split
  case _ sid hsid =>
    exact nocred_releaseSession crt sid _ ⟨htokens, hstore⟩
  case _ => exact ⟨htokens, hstore⟩

theorem nocred_disableToken (crt rt : String) (s : PoolState) (h : NoCred crt s) :
    NoCred crt (disableToken rt s) := by
  have htokens : ∀ t ∈ s.tokens.map (fun x =>
      if x.refresh_token == rt then disableUpd x else x),
      t.refresh_token ≠ crt := by
    intro t ht
    obtain ⟨x, hx, hfx⟩ := List.mem_map.mp ht
    have : t.refresh_token = x.refresh_token := by
      rw [← hfx]
      by_cases hc : (x.refresh_token == rt) = true <;> simp [hc, disableUpd]
    rw [this]
    exact h.1 x hx
  have hstore : ∀ t ∈ saveStore (s.tokens.map (fun x =>
      if x.refresh_token == rt then disableUpd x else x)) s.store,
      t.refresh_token = crt → t.enable = false :=
    saveStore_crt_pres crt _ s.store htokens h.2
  have hfilter : ∀ t ∈ (saveStore (s.tokens.map (fun x =>
      if x.refresh_token == rt then disableUpd x else x)) s.store).filter
        (fun t => t.enable), t.refresh_token ≠ crt := by
    intro t ht hrt
    have hmem := (List.mem_filter.mp ht).1
    have hen := (List.mem_filter.mp ht).2
    rw [hstore t hmem hrt] at hen
    cases hen
  unfold disableToken
  dsimp only
  split
  case _ sid hsid =>
    refine ⟨hfilter, ?_⟩
    rw [releaseSession_store]
    exact hstore
  case _ => exact ⟨hfilter, hstore⟩

theorem nocred_handleRequestError (crt : String) (o : RefreshOracle) (now : Nat)
    (e : ErrObj) (rt : String) (sid : Option String) (s : PoolState)
    (h : NoCred crt s) : NoCred crt (handleRequestError o now e rt sid s).2 := by
  unfold handleRequestError
  split
  · have h₁ := nocred_disableTokenUntil crt rt (nextUtcMidnight now) s h
    split
    case _ S =>
      split
      · exact h₁
      · exact nocred_getTokenForSession crt o now S _ h₁
    case _ => exact h₁
  split
  · have h₁ := nocred_disableToken crt rt s h
    split
    case _ S =>
      split
      · exact h₁
      · exact nocred_getTokenForSession crt o now S _ h₁
    case _ => exact h₁
  · exact h

theorem nocred_foldl_release (crt : String) (l : List (String × Binding)) :
    ∀ s : PoolState, NoCred crt s →
      NoCred crt (l.foldl (fun st p => releaseSession p.1 st) s) := by
  induction l with
  | nil => intro s h; exact h
  | cons p rest ih => intro s h; exact ih _ (nocred_releaseSession crt p.1 s h)

theorem nocred_poolStep (crt : String) (s t : PoolState) (hstep : PoolStep s t)
    (h : NoCred crt s) : NoCred crt t := by
  cases hstep with
  | acquire o now sid s => exact nocred_getTokenForSession crt o now sid s h
  | release sid s => exact nocred_releaseSession crt sid s h
  | report o now e rt sid s => exact nocred_handleRequestError crt o now e rt sid s h
  | disable rt s => exact nocred_disableToken crt rt s h
  | disableUntil rt resetTime s => exact nocred_disableTokenUntil crt rt resetTime s h
  | cleanup now s => exact nocred_foldl_release crt _ s h

theorem nocred_reachable (crt : String) (s₀ s : PoolState) (h0 : NoCred crt s₀)
    (hr : PoolReachable s₀ s) : NoCred crt s := by
  induction hr with
  | refl => exact h0
  | tail hsteps hstep ih => exact nocred_poolStep crt _ _ hstep ih

end Antigravity

namespace Antigravity

theorem disabled_of_mem_disableMap (crt : String) (l : List Token) (t : Token)
    (ht : t ∈ l.map (fun z => if z.refresh_token == crt then disableUpd z else z))
    (hrt : t.refresh_token = crt) : t.enable = false ∧ t.disabledUntil = none := by
  obtain ⟨x, hx, hfx⟩ := List.mem_map.mp ht
  by_cases hc : (x.refresh_token == crt) = true
  · rw [if_pos hc] at hfx
    rw [← hfx]
    exact ⟨rfl, rfl⟩
  · rw [if_neg hc] at hfx
    rw [← hfx] at hrt
    exact absurd (beq_iff_eq.mpr hrt) hc

theorem disableToken_save_facts (crt : String) (s : PoolState)
    (hst : ∀ t ∈ s.store, t.refresh_token = crt → t ∈ s.tokens) :
    ∀ t ∈ saveStore (s.tokens.map (fun z =>
        if z.refresh_token == crt then disableUpd z else z)) s.store,
      t.refresh_token = crt → t.enable = false ∧ t.disabledUntil = none := by
  intro t ht hrt
  unfold saveStore at ht
  obtain ⟨x, hx, hfx⟩ := List.mem_map.mp ht
  cases hfind : (s.tokens.map (fun z =>
      if z.refresh_token == crt then disableUpd z else z)).find?
      (fun m => m.refresh_token == x.refresh_token) with
  | some y =>
    rw [hfind] at hfx
    simp only [Option.getD_some] at hfx
    have hy : y ∈ _ := List.mem_of_find?_eq_some hfind
    exact hfx ▸ disabled_of_mem_disableMap crt s.tokens y hy (by rw [hfx]; exact hrt)
  | none =>
    rw [hfind] at hfx
    simp only [Option.getD_none] at hfx
    have hxrt : x.refresh_token = crt := by rw [hfx]; exact hrt
    have hxtok : x ∈ s.tokens := hst x hx hxrt
    rw [List.find?_eq_none] at hfind
    have helem : (if x.refresh_token == crt then disableUpd x else x) ∈
        s.tokens.map (fun z => if z.refresh_token == crt then disableUpd z else z) :=
      List.mem_map.mpr ⟨x, hxtok, rfl⟩
    have hpred : ((if x.refresh_token == crt then disableUpd x
        else x).refresh_token == x.refresh_token) = true := by
      by_cases hc : (x.refresh_token == crt) = true <;> simp [hc, disableUpd]
    exact absurd hpred (hfind _ helem)

theorem disableToken_store_facts (crt : String) (s : PoolState)
    (hst : ∀ t ∈ s.store, t.refresh_token = crt → t ∈ s.tokens) :
    ∀ t ∈ (disableToken crt s).store, t.refresh_token = crt →
      t.enable = false ∧ t.disabledUntil = none := by
  unfold disableToken
  dsimp only
  split
  case _ sid hsid =>
    intro t ht
    rw [releaseSession_store] at ht
    exact disableToken_save_facts crt s hst t ht
  case _ =>
    exact disableToken_save_facts crt s hst

theorem disableToken_tokens_nocrt (crt : String) (s : PoolState)
    (hst : ∀ t ∈ s.store, t.refresh_token = crt → t ∈ s.tokens) :
    ∀ t ∈ (disableToken crt s).tokens, t.refresh_token ≠ crt := by
  unfold disableToken
  dsimp only
  have key : ∀ t ∈ (saveStore (s.tokens.map (fun z =>
      if z.refresh_token == crt then disableUpd z else z)) s.store).filter
        (fun t => t.enable), t.refresh_token ≠ crt := by
    intro t ht hrt
    have hmem := (List.mem_filter.mp ht).1
    have hen := (List.mem_filter.mp ht).2
    rw [(disableToken_save_facts crt s hst t hmem hrt).1] at hen
    cases hen
  exact key

theorem disableToken_ts_none (crt : String) (s : PoolState) (hInv : MapsInv s) :
    mapLookup (disableToken crt s).tokenSessions crt = none := by
  unfold disableToken
  dsimp only
  split
  case _ sid hsid =>
    obtain ⟨b, hbs, hbrt⟩ := hInv.backward crt sid hsid
    unfold releaseSession
    dsimp only
    rw [hbs]
    dsimp only
    rw [mapLookup_mapDelete, if_pos hbrt]
  case _ hnone => exact hnone

/-- C4 (amended): a 403 failure report whose message does not indicate
quota permanently disables the credential (its durable record gets
`enable = false` with the cooldown field deleted), removes it from the
loaded list, releases its binding, never returns it from the report's
own reassignment, and no acquire in any later reachable pool state
returns it — only an operator restore could bring it back. -/
theorem antigravity_c4 (o : RefreshOracle) (now : Nat) (e : ErrObj) (crt : String)
    (sid : Option String) (s : PoolState)
    (h403 : e.statusCode = some 403) (hnq : msgIndicatesQuota e = false)
    (hInv : MapsInv s)
    (hst : ∀ t ∈ s.store, t.refresh_token = crt → t ∈ s.tokens) :
    (∀ t ∈ (handleRequestError o now e crt sid s).2.store,
        t.refresh_token = crt → t.enable = false ∧ t.disabledUntil = none) ∧
    (∀ t ∈ (handleRequestError o now e crt sid s).2.tokens,
        t.refresh_token ≠ crt) ∧
    mapLookup (handleRequestError o now e crt sid s).2.tokenSessions crt = none ∧
    (∀ t, (handleRequestError o now e crt sid s).1 = .ok t →
        t.refresh_token ≠ crt) ∧
    (∀ s₃, PoolReachable (handleRequestError o now e crt sid s).2 s₃ →
      ∀ (o₂ : RefreshOracle) (now₂ : Nat) (sid₂ : String) (t₂ : Token),
        (getTokenForSession o₂ now₂ sid₂ s₃).1 = .ok t₂ →
        t₂.refresh_token ≠ crt) := by
  have hqe : isQuotaError e = false := by
    unfold isQuotaError
    rw [h403, hnq]
    decide
  have hqne : ¬ (isQuotaError e = true) := by rw [hqe]; simp
  have h403' : (e.statusCode == some 403) = true := by rw [h403]; rfl
  have hA := disableToken_store_facts crt s hst
  have hB := disableToken_tokens_nocrt crt s hst
  have hC := disableToken_ts_none crt s hInv
  have hNC : NoCred crt (disableToken crt s) :=
    ⟨hB, fun t ht hrt => (hA t ht hrt).1⟩
  have origin_ne : ∀ (s' : PoolState), NoCred crt s' →
      ∀ (o₂ : RefreshOracle) (now₂ : Nat) (sid₂ : String) (t₂ : Token),
        (getTokenForSession o₂ now₂ sid₂ s').1 = .ok t₂ →
        t₂.refresh_token ≠ crt := by
    intro s' hnc o₂ now₂ sid₂ t₂ hok hrt
    have hpair : getTokenForSession o₂ now₂ sid₂ s' =
        (.ok t₂, (getTokenForSession o₂ now₂ sid₂ s').2) :=
      Prod.ext_iff.mpr ⟨hok, rfl⟩
    obtain ⟨t₀, hm, hrt0, -, -⟩ :=
      getTokenForSession_origin o₂ now₂ sid₂ s' t₂ _ hpair
    exact absurd (hrt0.trans hrt) (hnc.1 t₀ hm)
  cases sid with
  | none =>
    have hred : handleRequestError o now e crt none s =
        ((.error (.thrown e)), disableToken crt s) := by
      unfold handleRequestError
      rw [if_neg hqne, if_pos h403']
    rw [hred]
    refine ⟨hA, hB, hC, ?_, ?_⟩
    · intro t ht; cases ht
    · intro s₃ hr o₂ now₂ sid₂ t₂ hok
      exact origin_ne s₃ (nocred_reachable crt _ s₃ hNC hr) o₂ now₂ sid₂ t₂ hok
  | some S =>
    by_cases hSe : (S == "") = true
    · have hred : handleRequestError o now e crt (some S) s =
          ((.error (.thrown e)), disableToken crt s) := by
        unfold handleRequestError
        rw [if_neg hqne, if_pos h403']
        dsimp only
        rw [hSe]
        simp only [if_true]
      rw [hred]
      refine ⟨hA, hB, hC, ?_, ?_⟩
      · intro t ht; cases ht
      · intro s₃ hr o₂ now₂ sid₂ t₂ hok
        exact origin_ne s₃ (nocred_reachable crt _ s₃ hNC hr) o₂ now₂ sid₂ t₂ hok
    · have hSf : (S == "") = false := Bool.not_eq_true _ ▸ hSe
      have hred : handleRequestError o now e crt (some S) s =
          getTokenForSession o now S (disableToken crt s) := by
        unfold handleRequestError
        rw [if_neg hqne, if_pos h403']
        dsimp only
        rw [hSf]
        simp only [Bool.false_eq_true, if_false]
      rw [hred]
      have hNC' := nocred_getTokenForSession crt o now S _ hNC
      refine ⟨getTokenForSession_store_crt_pres o now S _ crt hB hA,
        hNC'.1, getTokenForSession_ts_none o now S _ crt hC hB, ?_, ?_⟩
      · intro t ht
        exact origin_ne _ hNC o now S t ht
      · intro s₃ hr o₂ now₂ sid₂ t₂ hok
        exact origin_ne s₃ (nocred_reachable crt _ s₃ hNC' hr) o₂ now₂ sid₂ t₂ hok

/-- Witness for C4: a clean 403 on a pool with one bound credential. -/
theorem antigravity_c4_witness :
    (∀ t ∈ (handleRequestError (fun _ => Except.ok ("n", 3600)) 0
        ⟨some 403, some "forbidden"⟩ "A" (some "s1")
        { tokens := [⟨"A", "a0", 1000, 100000, true, none, false⟩],
          store := [⟨"A", "a0", 1000, 100000, true, none, false⟩],
          sessionBindings := [("s1", ⟨0, "A", 0⟩)],
          tokenSessions := [("A", "s1")], usageStats := [] }).2.store,
        t.refresh_token = "A" → t.enable = false ∧ t.disabledUntil = none) ∧
    (∀ t ∈ (handleRequestError (fun _ => Except.ok ("n", 3600)) 0
        ⟨some 403, some "forbidden"⟩ "A" (some "s1")
        { tokens := [⟨"A", "a0", 1000, 100000, true, none, false⟩],
          store := [⟨"A", "a0", 1000, 100000, true, none, false⟩],
          sessionBindings := [("s1", ⟨0, "A", 0⟩)],
          tokenSessions := [("A", "s1")], usageStats := [] }).2.tokens,
        t.refresh_token ≠ "A") ∧
    mapLookup (handleRequestError (fun _ => Except.ok ("n", 3600)) 0
        ⟨some 403, some "forbidden"⟩ "A" (some "s1")
        { tokens := [⟨"A", "a0", 1000, 100000, true, none, false⟩],
          store := [⟨"A", "a0", 1000, 100000, true, none, false⟩],
          sessionBindings := [("s1", ⟨0, "A", 0⟩)],
          tokenSessions := [("A", "s1")], usageStats := [] }).2.tokenSessions "A"
      = none ∧
    (∀ t, (handleRequestError (fun _ => Except.ok ("n", 3600)) 0
        ⟨some 403, some "forbidden"⟩ "A" (some "s1")
        { tokens := [⟨"A", "a0", 1000, 100000, true, none, false⟩],
          store := [⟨"A", "a0", 1000, 100000, true, none, false⟩],
          sessionBindings := [("s1", ⟨0, "A", 0⟩)],
          tokenSessions := [("A", "s1")], usageStats := [] }).1 = .ok t →
        t.refresh_token ≠ "A") ∧
    (∀ s₃, PoolReachable (handleRequestError (fun _ => Except.ok ("n", 3600)) 0
        ⟨some 403, some "forbidden"⟩ "A" (some "s1")
        { tokens := [⟨"A", "a0", 1000, 100000, true, none, false⟩],
          store := [⟨"A", "a0", 1000, 100000, true, none, false⟩],
          sessionBindings := [("s1", ⟨0, "A", 0⟩)],
          tokenSessions := [("A", "s1")], usageStats := [] }).2 s₃ →
      ∀ (o₂ : RefreshOracle) (now₂ : Nat) (sid₂ : String) (t₂ : Token),
        (getTokenForSession o₂ now₂ sid₂ s₃).1 = .ok t₂ →
        t₂.refresh_token ≠ "A") :=
  antigravity_c4 (fun _ => Except.ok ("n", 3600)) 0
    ⟨some 403, some "forbidden"⟩ "A" (some "s1")
    { tokens := [⟨"A", "a0", 1000, 100000, true, none, false⟩],
      store := [⟨"A", "a0", 1000, 100000, true, none, false⟩],
      sessionBindings := [("s1", ⟨0, "A", 0⟩)],
      tokenSessions := [("A", "s1")], usageStats := [] }
    rfl (by decide) (mapsInv_single "s1" "A" 0 0 _ _ _) (by decide)

/-- C4 counterexample to the claim as stated: a 403 whose message
contains `quota` is classified as quota exhaustion first, so the
credential is only cooled down — its `enabled` flag stays `true` —
instead of being permanently disabled. -/
theorem antigravity_c4_counterexample :
    (⟨some 403, some "quota"⟩ : ErrObj).statusCode = some 403 ∧
    (∃ t ∈ (handleRequestError (fun _ => Except.ok ("n", 3600)) 0
        ⟨some 403, some "quota"⟩ "A" none
        (poolInit [⟨"A", "a0", 1000, 100000, true, none, false⟩]
                  [⟨"A", "a0", 1000, 100000, true, none, false⟩])).2.tokens,
      t.refresh_token = "A" ∧ t.enable = true ∧
        t.disabledUntil = some 86400000) := by
  exact ⟨rfl, ⟨⟨"A", "a0", 1000, 100000, true, some 86400000, true⟩,
    by decide, rfl, rfl, rfl⟩⟩

end Antigravity

namespace Antigravity

theorem disable_save_facts_list (crt : String) (toks store : List Token)
    (hst : ∀ t ∈ store, t.refresh_token = crt → t ∈ toks) :
    ∀ t ∈ saveStore (toks.map (fun z =>
        if z.refresh_token == crt then disableUpd z else z)) store,
      t.refresh_token = crt → t.enable = false ∧ t.disabledUntil = none := by
  intro t ht hrt
  unfold saveStore at ht
  obtain ⟨x, hx, hfx⟩ := List.mem_map.mp ht
  cases hfind : (toks.map (fun z =>
      if z.refresh_token == crt then disableUpd z else z)).find?
      (fun m => m.refresh_token == x.refresh_token) with
  | some y =>
    rw [hfind] at hfx
    simp only [Option.getD_some] at hfx
    have hy : y ∈ _ := List.mem_of_find?_eq_some hfind
    exact hfx ▸ disabled_of_mem_disableMap crt toks y hy (by rw [hfx]; exact hrt)
  | none =>
    rw [hfind] at hfx
    simp only [Option.getD_none] at hfx
    have hxrt : x.refresh_token = crt := by rw [hfx]; exact hrt
    have hxtok : x ∈ toks := hst x hx hxrt
    rw [List.find?_eq_none] at hfind
    have helem : (if x.refresh_token == crt then disableUpd x else x) ∈
        toks.map (fun z => if z.refresh_token == crt then disableUpd z else z) :=
      List.mem_map.mpr ⟨x, hxtok, rfl⟩
    have hpred : ((if x.refresh_token == crt then disableUpd x
        else x).refresh_token == x.refresh_token) = true := by
      by_cases hc : (x.refresh_token == crt) = true <;> simp [hc, disableUpd]
    exact absurd hpred (hfind _ helem)

/-- C5 (amended): a 400 error (model-permission denial) whose message
does not indicate quota is handled like a 403 only by the round-robin
variant, which permanently disables the credential's durable record,
drops it from the loaded list and returns the next available
credential; the sticky-session variant — the one that takes a session
id — re-raises a 400 unchanged with no state transition and no
reassignment. -/
theorem antigravity_c5 (o : RefreshOracle) (now : Nat) (e : ErrObj)
    (rt : String) (sid : Option String) (s : PoolState) (srr : RRState)
    (h400 : e.statusCode = some 400) (hnq : msgIndicatesQuota e = false)
    (hst : ∀ t ∈ srr.store, t.refresh_token = rt → t ∈ srr.tokens) :
    handleRequestError o now e rt sid s = (.error (.thrown e), s) ∧
    rrHandleRequestError o now e rt srr =
      getNextToken o now (rrDisableToken rt srr) ∧
    (∀ t ∈ (rrDisableToken rt srr).store, t.refresh_token = rt →
        t.enable = false ∧ t.disabledUntil = none) ∧
    (∀ t ∈ (rrDisableToken rt srr).tokens, t.refresh_token ≠ rt) := by
  have hqe : isQuotaError e = false := by
    unfold isQuotaError
    rw [h400, hnq]
    decide
  have hqne : ¬ (isQuotaError e = true) := by rw [hqe]; simp
  have h403' : ¬ ((e.statusCode == some 403) = true) := by rw [h400]; decide
  have h400' : (e.statusCode == some 400) = true := by rw [h400]; rfl
  have hstorefacts := disable_save_facts_list rt srr.tokens srr.store hst
  refine ⟨?_, ?_, hstorefacts, ?_⟩
  · unfold handleRequestError
    rw [if_neg hqne, if_neg h403']
  · unfold rrHandleRequestError
    rw [if_neg hqne, if_neg h403', if_pos h400']
  · intro t ht hrt
    have hmem := (List.mem_filter.mp ht).1
    have hen := (List.mem_filter.mp ht).2
    rw [(hstorefacts t hmem hrt).1] at hen
    cases hen

/-- Witness for C5: a 400 with a non-quota message on a one-credential
pool of each variant. -/
theorem antigravity_c5_witness :
    handleRequestError (fun _ => Except.ok ("n", 3600)) 0
      ⟨some 400, some "model not allowed"⟩ "A" (some "s1")
      (poolInit [⟨"A", "a0", 1000, 100000, true, none, false⟩]
                [⟨"A", "a0", 1000, 100000, true, none, false⟩]) =
      (.error (.thrown ⟨some 400, some "model not allowed"⟩),
        poolInit [⟨"A", "a0", 1000, 100000, true, none, false⟩]
                 [⟨"A", "a0", 1000, 100000, true, none, false⟩]) ∧
    rrHandleRequestError (fun _ => Except.ok ("n", 3600)) 0
      ⟨some 400, some "model not allowed"⟩ "A"
      ⟨[⟨"A", "a0", 1000, 100000, true, none, false⟩],
       [⟨"A", "a0", 1000, 100000, true, none, false⟩], 0, []⟩ =
      getNextToken (fun _ => Except.ok ("n", 3600)) 0
        (rrDisableToken "A"
          ⟨[⟨"A", "a0", 1000, 100000, true, none, false⟩],
           [⟨"A", "a0", 1000, 100000, true, none, false⟩], 0, []⟩) ∧
    (∀ t ∈ (rrDisableToken "A"
        ⟨[⟨"A", "a0", 1000, 100000, true, none, false⟩],
         [⟨"A", "a0", 1000, 100000, true, none, false⟩], 0, []⟩).store,
      t.refresh_token = "A" → t.enable = false ∧ t.disabledUntil = none) ∧
    (∀ t ∈ (rrDisableToken "A"
        ⟨[⟨"A", "a0", 1000, 100000, true, none, false⟩],
         [⟨"A", "a0", 1000, 100000, true, none, false⟩], 0, []⟩).tokens,
      t.refresh_token ≠ "A") :=
  antigravity_c5 (fun _ => Except.ok ("n", 3600)) 0
    ⟨some 400, some "model not allowed"⟩ "A" (some "s1")
    (poolInit [⟨"A", "a0", 1000, 100000, true, none, false⟩]
              [⟨"A", "a0", 1000, 100000, true, none, false⟩])
    ⟨[⟨"A", "a0", 1000, 100000, true, none, false⟩],
     [⟨"A", "a0", 1000, 100000, true, none, false⟩], 0, []⟩
    rfl (by decide) (by decide)

/-- C5 counterexample to the claim as stated: in the sticky-session
variant (the one that takes the session id the claim speaks about) a
400 error performs no transition at all — the credential stays enabled,
the state is unchanged and the error is re-thrown, instead of the
claimed 403-like permanent disable with reassignment. -/
theorem antigravity_c5_counterexample :
    (⟨some 400, some "model not allowed"⟩ : ErrObj).statusCode = some 400 ∧
    handleRequestError (fun _ => Except.ok ("n", 3600)) 0
      ⟨some 400, some "model not allowed"⟩ "A" (some "s1")
      { tokens := [⟨"A", "a0", 1000, 100000, true, none, false⟩],
        store := [⟨"A", "a0", 1000, 100000, true, none, false⟩],
        sessionBindings := [("s1", ⟨0, "A", 0⟩)],
        tokenSessions := [("A", "s1")], usageStats := [] } =
      (.error (.thrown ⟨some 400, some "model not allowed"⟩),
        { tokens := [⟨"A", "a0", 1000, 100000, true, none, false⟩],
          store := [⟨"A", "a0", 1000, 100000, true, none, false⟩],
          sessionBindings := [("s1", ⟨0, "A", 0⟩)],
          tokenSessions := [("A", "s1")], usageStats := [] }) ∧
    (∃ t ∈ ({ tokens := [⟨"A", "a0", 1000, 100000, true, none, false⟩],
              store := [⟨"A", "a0", 1000, 100000, true, none, false⟩],
              sessionBindings := [("s1", ⟨0, "A", 0⟩)],
              tokenSessions := [("A", "s1")],
              usageStats := [] } : PoolState).tokens,
      t.refresh_token = "A" ∧ t.enable = true) :=
  ⟨rfl, rfl, ⟨⟨"A", "a0", 1000, 100000, true, none, false⟩, by decide, rfl, rfl⟩⟩

end Antigravity

namespace Antigravity

theorem updateTokenIn_map_rt (l : List Token) (u : Token) :
    (updateTokenIn l u).map (fun t => t.refresh_token) =
      l.map (fun t => t.refresh_token) := by
  unfold updateTokenIn
  rw [List.map_map]
  apply List.map_congr_left
  intro x hx
  by_cases hc : (x.refresh_token == u.refresh_token) = true
  · simp only [Function.comp_apply, if_pos hc]
    exact (eq_of_beq hc).symm
  · simp only [Function.comp_apply, if_neg hc]

theorem nodup_rt_unique (l : List Token)
    (hn : (l.map (fun t => t.refresh_token)).Nodup) (x y : Token)
    (hx : x ∈ l) (hy : y ∈ l) (hxy : x.refresh_token = y.refresh_token) :
    x = y := by
  induction l with
  | nil => cases hx
  | cons a rest ih =>
    rw [List.map_cons, List.nodup_cons] at hn
    rcases List.mem_cons.mp hx with hxa | hxr <;>
      rcases List.mem_cons.mp hy with hya | hyr
    · rw [hxa, hya]
    · exfalso
      apply hn.1
      rw [← hxa, hxy]
      exact List.mem_map.mpr ⟨y, hyr, rfl⟩
    · exfalso
      apply hn.1
      rw [← hya, ← hxy]
      exact List.mem_map.mpr ⟨x, hxr, rfl⟩
    · exact ih hn.2 hxr hyr

theorem filter_map_rt_congr (p : Token → Bool) (l : List Token) (f : Token → Token)
    (hf : ∀ x ∈ l, (f x).refresh_token = x.refresh_token ∧ p (f x) = p x) :
    (((l.map f).filter p).map (fun t => t.refresh_token)) =
      ((l.filter p).map (fun t => t.refresh_token)) := by
  induction l with
  | nil => rfl
  | cons a rest ih =>
    have ha := hf a (List.mem_cons_self a rest)
    have hrest : ∀ x ∈ rest, (f x).refresh_token = x.refresh_token ∧ p (f x) = p x :=
      fun x hx => hf x (List.mem_cons_of_mem a hx)
    rw [List.map_cons, List.filter_cons, List.filter_cons, ha.2]
    by_cases hp : p a = true
    · rw [if_pos hp, if_pos hp, List.map_cons, List.map_cons, ha.1, ih hrest]
    · rw [if_neg hp, if_neg hp, ih hrest]

theorem rrAvail_update_map_rt (now : Nat) (toks : List Token) (tok : Token)
    (na : String) (ei : Nat)
    (hnodup : (toks.map (fun t => t.refresh_token)).Nodup) (htok : tok ∈ toks) :
    ((updateTokenIn toks (refreshUpd now na ei tok)).filter
        (fun t => t.enable && !(isTokenDisabledByQuota now t))).map
      (fun t => t.refresh_token) =
    (toks.filter (fun t => t.enable && !(isTokenDisabledByQuota now t))).map
      (fun t => t.refresh_token) := by
  unfold updateTokenIn
  refine filter_map_rt_congr _ toks _ ?_
  intro x hxm
  by_cases hc : (x.refresh_token == (refreshUpd now na ei tok).refresh_token) = true
  · rw [if_pos hc]
    have hxrt : x.refresh_token = tok.refresh_token := eq_of_beq hc
    have hxeq : x = tok := nodup_rt_unique toks hnodup x tok hxm htok hxrt
    exact ⟨by rw [hxrt]; rfl, by rw [hxeq]; rfl⟩
  · rw [if_neg hc]
    exact ⟨rfl, rfl⟩

theorem getNextToken_step (o : RefreshOracle) (now : Nat) (s : RRState)
    (horacle : ∀ r, ∃ p, o r = Except.ok p)
    (hnodup : (s.tokens.map (fun t => t.refresh_token)).Nodup)
    (hpos : 0 < (rrAvailableTokens now s).length) :
    ∃ t s', getNextToken o now s = (.ok t, s') ∧
      t.refresh_token =
        ((rrAvailableTokens now s).map (fun t => t.refresh_token)).getD
          (s.currentTokenIndex % (rrAvailableTokens now s).length) "" ∧
      (rrAvailableTokens now s').map (fun t => t.refresh_token) =
        (rrAvailableTokens now s).map (fun t => t.refresh_token) ∧
      s'.tokens.map (fun t => t.refresh_token) =
        s.tokens.map (fun t => t.refresh_token) ∧
      s'.currentTokenIndex =
        (if s.currentTokenIndex + 1 > 10000 then 0
         else s.currentTokenIndex + 1) := by
  have hAne : rrAvailableTokens now s ≠ [] := by
    intro hA
    rw [hA] at hpos
    simp at hpos
  have hne : s.tokens.isEmpty = false := by
    cases htoks : s.tokens with
    | nil =>
      exfalso
      apply hAne
      unfold rrAvailableTokens
      rw [htoks]
      rfl
    | cons a rest => rfl
  have hAe : (rrAvailableTokens now s).isEmpty = false := by
    rw [Bool.eq_false_iff]
    intro hc
    exact hAne (List.isEmpty_iff.mp hc)
  have hmodlt : s.currentTokenIndex % (rrAvailableTokens now s).length <
      (rrAvailableTokens now s).length := Nat.mod_lt _ hpos
  have hmodlt' : s.currentTokenIndex % (rrAvailableTokens now s).length <
      ((rrAvailableTokens now s).map (fun t => t.refresh_token)).length := by
    rw [List.length_map]
    exact hmodlt
  have htokrt : ((rrAvailableTokens now s).getD
        (s.currentTokenIndex % (rrAvailableTokens now s).length)
        default).refresh_token =
      ((rrAvailableTokens now s).map (fun t => t.refresh_token)).getD
        (s.currentTokenIndex % (rrAvailableTokens now s).length) "" := by
    rw [List.getD_eq_getElem _ default hmodlt, List.getD_eq_getElem _ "" hmodlt',
      List.getElem_map]
  have htokmem : (rrAvailableTokens now s).getD
      (s.currentTokenIndex % (rrAvailableTokens now s).length) default ∈
      rrAvailableTokens now s := by
    rw [List.getD_eq_getElem _ default hmodlt]
    exact List.getElem_mem _
  have htoktoks : (rrAvailableTokens now s).getD
      (s.currentTokenIndex % (rrAvailableTokens now s).length) default ∈
      s.tokens := (List.mem_filter.mp htokmem).1
  unfold getNextToken
  rw [hne]
  simp only [Bool.false_eq_true, if_false]
  rw [hAe]
  simp only [Bool.false_eq_true, if_false]
  by_cases hx : isExpired now ((rrAvailableTokens now s).getD
      (s.currentTokenIndex % (rrAvailableTokens now s).length) default)
  · obtain ⟨⟨na, ei⟩, ho⟩ := horacle ((rrAvailableTokens now s).getD
      (s.currentTokenIndex % (rrAvailableTokens now s).length)
      default).refresh_token
    simp only [hx, if_true]
    rw [ho]
    refine ⟨_, _, rfl, htokrt, ?_, updateTokenIn_map_rt _ _, rfl⟩
    unfold rrAvailableTokens
    dsimp only
    exact rrAvail_update_map_rt now s.tokens _ na ei hnodup htoktoks
  · simp only [hx, if_false]
    exact ⟨_, _, rfl, htokrt, rfl, rfl, rfl⟩

end Antigravity

namespace Antigravity

theorem rrRunN_spec (o : RefreshOracle) (now : Nat)
    (horacle : ∀ r, ∃ p, o r = Except.ok p) :
    ∀ (k : Nat) (s : RRState),
      (s.tokens.map (fun t => t.refresh_token)).Nodup →
      0 < (rrAvailableTokens now s).length →
      s.currentTokenIndex + k ≤ 10001 →
      ∃ ts : List Token, (rrRunN o now k s).1 = ts.map Except.ok ∧
        ts.map (fun t => t.refresh_token) =
          (List.range k).map (fun j =>
            ((rrAvailableTokens now s).map (fun t => t.refresh_token)).getD
              ((s.currentTokenIndex + j) % (rrAvailableTokens now s).length) "") := by
  intro k
  induction k with
  | zero => intro s _ _ _; exact ⟨[], rfl, rfl⟩
  | succ k ih =>
    intro s hnodup hpos hcur
    obtain ⟨t, s', hstep, hrt, havail, htoks, hcursor⟩ :=
      getNextToken_step o now s horacle hnodup hpos
    have hnodup' : (s'.tokens.map (fun t => t.refresh_token)).Nodup := by
      rw [htoks]; exact hnodup
    have hlen' : (rrAvailableTokens now s').length =
        (rrAvailableTokens now s).length := by
      have h := congrArg List.length havail
      simpa using h
    have hpos' : 0 < (rrAvailableTokens now s').length := by
      rw [hlen']; exact hpos
    by_cases hreset : s.currentTokenIndex + 1 > 10000
    · have hk0 : k = 0 := by omega
      subst hk0
      refine ⟨[t], ?_, ?_⟩
      · show (rrRunN o now 1 s).1 = [Except.ok t]
        simp only [rrRunN]
        rw [hstep]
      · have hr1 : List.range (0 + 1) = [0] := rfl
        rw [hr1, List.map_cons, List.map_nil, List.map_cons, List.map_nil,
          hrt, Nat.add_zero]
    · have hcursor' : s'.currentTokenIndex = s.currentTokenIndex + 1 := by
        rw [hcursor, if_neg hreset]
      have hcur' : s'.currentTokenIndex + k ≤ 10001 := by omega
      obtain ⟨ts', h1', h2'⟩ := ih s' hnodup' hpos' hcur'
      refine ⟨t :: ts', ?_, ?_⟩
      · show (rrRunN o now (k + 1) s).1 = (t :: ts').map Except.ok
        simp only [rrRunN]
        rw [hstep]
        dsimp only
        rw [h1']
        rfl
      · rw [List.map_cons, h2', hrt, havail, hlen', hcursor']
        rw [List.range_succ_eq_map, List.map_cons, List.map_map]
        congr 1
        apply List.map_congr_left
        intro j hj
        simp only [Function.comp_apply]
        have heq : s.currentTokenIndex + 1 + j = s.currentTokenIndex + Nat.succ j := by
          omega
        rw [heq]

theorem add_mod_mod (c i N : Nat) : (c + i) % N = (i + c % N) % N := by
  rw [Nat.add_comm c i, Nat.add_mod i c N, Nat.add_mod i (c % N) N,
    Nat.mod_mod_of_dvd c dvd_rfl]

theorem range_map_getD_rotate (R : List String) (c : Nat) (hR : R ≠ []) :
    (List.range R.length).map (fun j => R.getD ((c + j) % R.length) "") =
      R.rotate (c % R.length) := by
  have hlen : 0 < R.length := List.length_pos.mpr hR
  apply List.ext_getElem
  · simp [List.length_rotate]
  · intro i h1 h2
    rw [List.getElem_map, List.getElem_range, List.getElem_rotate]
    rw [List.getD_eq_getElem R "" (Nat.mod_lt _ hlen)]
    congr 1
    exact add_mod_mod c i R.length

/-- C8 (amended): with a fixed set of eligible credentials and a
starting cursor `c` that keeps `c + N` at most `10001` (so the
anti-overflow reset of the cursor at `10000` cannot fire mid-cycle),
`N` consecutive session-less `getNextToken` calls succeed and return
each of the `N` eligible credential ids exactly once (a permutation of
the eligible list). -/
theorem antigravity_c8 (o : RefreshOracle) (now : Nat) (s : RRState)
    (horacle : ∀ r, ∃ p, o r = Except.ok p)
    (hnodup : (s.tokens.map (fun t => t.refresh_token)).Nodup)
    (hpos : 0 < (rrAvailableTokens now s).length)
    (hcur : s.currentTokenIndex + (rrAvailableTokens now s).length ≤ 10001) :
    ∃ ts : List Token,
      (rrRunN o now (rrAvailableTokens now s).length s).1 = ts.map Except.ok ∧
      (ts.map (fun t => t.refresh_token)).Perm
        ((rrAvailableTokens now s).map (fun t => t.refresh_token)) := by
  obtain ⟨ts, h1, h2⟩ := rrRunN_spec o now horacle
    (rrAvailableTokens now s).length s hnodup hpos hcur
  refine ⟨ts, h1, ?_⟩
  rw [h2]
  have hRne : (rrAvailableTokens now s).map (fun t => t.refresh_token) ≠ [] := by
    intro hc
    have := congrArg List.length hc
    simp at this
    rw [this] at hpos
    simp at hpos
  have hrot := range_map_getD_rotate
    ((rrAvailableTokens now s).map (fun t => t.refresh_token))
    s.currentTokenIndex hRne
  rw [List.length_map] at hrot
  rw [hrot]
  exact List.rotate_perm _ _

/-- Witness for C8: three eligible credentials, cursor 5, three calls
visit each id exactly once. -/
theorem antigravity_c8_witness :
    ∃ ts : List Token,
      (rrRunN (fun _ => Except.ok ("n", 3600)) 1000
        (rrAvailableTokens 1000
          ⟨[⟨"A", "a0", 1000, 100000, true, none, false⟩,
            ⟨"B", "b0", 1000, 100000, true, none, false⟩,
            ⟨"C", "c0", 1000, 100000, true, none, false⟩],
           [], 5, []⟩).length
        ⟨[⟨"A", "a0", 1000, 100000, true, none, false⟩,
          ⟨"B", "b0", 1000, 100000, true, none, false⟩,
          ⟨"C", "c0", 1000, 100000, true, none, false⟩],
         [], 5, []⟩).1 = ts.map Except.ok ∧
      (ts.map (fun t => t.refresh_token)).Perm
        ((rrAvailableTokens 1000
          ⟨[⟨"A", "a0", 1000, 100000, true, none, false⟩,
            ⟨"B", "b0", 1000, 100000, true, none, false⟩,
            ⟨"C", "c0", 1000, 100000, true, none, false⟩],
           [], 5, []⟩).map (fun t => t.refresh_token)) :=
  antigravity_c8 (fun _ => Except.ok ("n", 3600)) 1000
    ⟨[⟨"A", "a0", 1000, 100000, true, none, false⟩,
      ⟨"B", "b0", 1000, 100000, true, none, false⟩,
      ⟨"C", "c0", 1000, 100000, true, none, false⟩],
     [], 5, []⟩
    (fun _ => ⟨("n", 3600), rfl⟩) (by decide) (by decide) (by decide)

/-- C8 counterexample to the claim as stated: with three eligible
credentials and starting cursor `9999`, the anti-overflow reset fires
after the second call (the cursor jumps from `10001` to `0`), so the
three calls return `A, B, A` — credential `A` repeats before `C` has
been visited. -/
theorem antigravity_c8_counterexample :
    (rrAvailableTokens 1000
      ⟨[⟨"A", "a0", 1000, 100000, true, none, false⟩,
        ⟨"B", "b0", 1000, 100000, true, none, false⟩,
        ⟨"C", "c0", 1000, 100000, true, none, false⟩],
       [], 9999, []⟩).length = 3 ∧
    (rrRunN (fun _ => Except.ok ("n", 3600)) 1000 3
      ⟨[⟨"A", "a0", 1000, 100000, true, none, false⟩,
        ⟨"B", "b0", 1000, 100000, true, none, false⟩,
        ⟨"C", "c0", 1000, 100000, true, none, false⟩],
       [], 9999, []⟩).1 =
      [Except.ok ⟨"A", "a0", 1000, 100000, true, none, false⟩,
       Except.ok ⟨"B", "b0", 1000, 100000, true, none, false⟩,
       Except.ok ⟨"A", "a0", 1000, 100000, true, none, false⟩] :=
  ⟨rfl, rfl⟩

end Antigravity
